import Mathlib

/-!
# rudder-server: jobsdb setup and teardown (`jobsdb/setup.go`)

The Go methods of `setup.go` are embedded as actions over an explicit history of
external calls.  Every function that `setup.go` calls but does not define
(database driver, logger, configuration, dataset catalog, migrator) is a field of
`Env`; it may answer differently depending on everything that happened before.
-/

namespace Jobsdb

/-! ## Go values -/

/-- Go `error` values: a plain error, or an error built by `fmt.Errorf` with a
`%w` verb, which keeps the wrapped cause. -/
inductive GoError where
  | plain (msg : String)
  | wrapped (msg : String) (cause : GoError)
deriving DecidableEq, Repr

/-- The `Error()` method. -/
def GoError.Error : GoError → String
  | .plain msg => msg
  | .wrapped msg _ => msg

/-- The `Unwrap()` method as seen by `errors.Unwrap`. -/
def GoError.Unwrap : GoError → Option GoError
  | .plain _ => none
  | .wrapped _ cause => some cause

/-- The call `fmt.Errorf(text + "%w", err)`: the message is `text` followed by
the message of `err`, and `err` is kept as the wrapped cause. -/
def Errorf_w (text : String) (err : GoError) : GoError :=
  .wrapped (text ++ err.Error) err

/-- How a Go call ends: it returns a value or it panics with a value. -/
inductive Outcome (α : Type) where
  | ret (a : α)
  | panic (v : GoError)
deriving DecidableEq, Repr

/-- The type `lock.LockToken` of package `jobsdb/internal/lock`; a token is
identified by a number. -/
structure LockToken where
  id : Nat
deriving DecidableEq, Repr

/-- The type `dataSetT`; `setup.go` reads only `Index`. -/
structure dataSetT where
  JobTable : String
  JobStatusTable : String
  Index : String
deriving DecidableEq, Repr

/-- The handle returned by `sql.Open(driverName, dataSourceName)`. -/
structure DB where
  driverName : String
  dataSourceName : String
deriving DecidableEq, Repr

/-- A value stored in the template data map (`interface{}`): a string, or a
`[]string` where `none` is the nil slice. -/
inductive TemplateValue where
  | str (s : String)
  | strSlice (xs : Option (List String))
deriving DecidableEq, Repr

/-- The struct `migrator.Migrator` with the three fields set in `setup.go`. -/
structure Migrator where
  Handle : DB
  MigrationsTable : String
  ShouldForceSetLowerVersion : Bool
deriving DecidableEq, Repr

/-- One external call made by `setup.go`, with its arguments and its result. -/
inductive Event where
  | Infof (msg : String)
  | Exec (sqlStatement : String) (err : Option GoError)
  | assertError (err : Option GoError) (res : Outcome Unit)
  | dropAllDS (l : LockToken) (res : Outcome (Option GoError))
  | dropJournal (res : Outcome Unit)
  | dropAllBackupDS (res : Outcome (Option GoError))
  | refreshDSList (l : LockToken) (res : Outcome (List dataSetT))
  | GetConnectionString (res : String)
  | sqlOpen (driverName dataSourceName : String) (err : Option GoError)
  | MigrateFromTemplates (m : Migrator) (templatesDir : String)
      (templateData : List (String × TemplateValue)) (res : Outcome (Option GoError))
  | Close (db : DB) (err : Option GoError)
deriving DecidableEq, Repr

/-- The world outside `setup.go`.  Each field is a function called by
`setup.go` and defined elsewhere; its first argument is the history of external
calls so far. -/
structure Env where
  Exec : List Event → String → Option GoError
  assertError : List Event → Option GoError → Outcome Unit
  dropAllDS : List Event → LockToken → Outcome (Option GoError)
  dropJournal : List Event → Outcome Unit
  dropAllBackupDS : List Event → Outcome (Option GoError)
  refreshDSList : List Event → LockToken → Outcome (List dataSetT)
  GetConnectionString : List Event → String
  sqlOpen : List Event → String → String → Option GoError
  MigrateFromTemplates : List Event → Migrator → String →
    List (String × TemplateValue) → Outcome (Option GoError)
  Close : List Event → DB → Option GoError
  configBool : String → Option Bool

/-- Modelled from the spec: `config.GetBool(key, defaultValue)` of package
`config`, whose source is missing.  It yields the value the operator configured
for `key`, and `defaultValue` when the key is not configured. -/
def GetBool (configBool : String → Option Bool) (key : String) (defaultValue : Bool) : Bool :=
  match configBool key with
  | some b => b
  | none => defaultValue

/-! ## Actions -/

/-- A Go statement sequence: it reads and extends the history of external calls
and returns or panics. -/
def Act (α : Type) : Type := List Event → Outcome α × List Event

/-- A statement that returns `a` without any external call. -/
def Act.ret {α : Type} (a : α) : Act α := fun h => (.ret a, h)

/-- Sequencing: a panic in the first part skips the second part. -/
def Act.seq {α β : Type} (m : Act α) (f : α → Act β) : Act β := fun h =>
  match m h with
  | (.ret a, h1) => f a h1
  | (.panic v, h1) => (.panic v, h1)

instance : Monad Act where
  pure := Act.ret
  bind := Act.seq

/-- The builtin `panic(v)`. -/
def goPanic {α : Type} (v : GoError) : Act α := fun h => (.panic v, h)

/-- A `defer d` followed by `body`: `d` runs when `body` returns and also when
it panics, and the outcome of `body` is kept. -/
def withDefer {α : Type} (d : Act Unit) (body : Act α) : Act α := fun h =>
  match body h with
  | (r, h1) => (r, (d h1).2)

/-- A call that cannot panic, recorded with its result. -/
def callTotal {α : Type} (f : List Event → α) (ev : α → Event) : Act α := fun h =>
  (.ret (f h), h ++ [ev (f h)])

/-- A call that may panic, recorded with its outcome. -/
def callOutcome {α : Type} (f : List Event → Outcome α) (ev : Outcome α → Event) : Act α :=
  fun h => (f h, h ++ [ev (f h)])

/-! ## `setup.go` -/

/-- The type `HandleT`; the logger and the database handle are part of `Env`. -/
structure HandleT where
  tablePrefix : String
deriving DecidableEq, Repr

/-- `func (jd *HandleT) SchemaMigrationTable() string` -/
def HandleT.SchemaMigrationTable (jd : HandleT) : String :=
  jd.tablePrefix ++ "_schema_migrations"

/-- `func (jd *HandleT) dropSchemaMigrationTables()` -/
def HandleT.dropSchemaMigrationTables (jd : HandleT) (env : Env) : Act Unit := do
  let sqlStatement := "DROP TABLE IF EXISTS " ++ jd.SchemaMigrationTable
  let err ← callTotal (fun h => env.Exec h sqlStatement) (Event.Exec sqlStatement)
  callOutcome (fun h => env.assertError h err) (Event.assertError err)

/-- `func (jd *HandleT) dropDatabaseTables(l lock.LockToken)` -/
def HandleT.dropDatabaseTables (jd : HandleT) (env : Env) (l : LockToken) : Act Unit := do
  callTotal (fun _ => ()) (fun _ => Event.Infof
    ("[JobsDB:" ++ jd.tablePrefix ++ "] Dropping all database tables"))
  jd.dropSchemaMigrationTables env
  let err ← callOutcome (fun h => env.dropAllDS h l) (Event.dropAllDS l)
  callOutcome (fun h => env.assertError h err) (Event.assertError err)
  callOutcome env.dropJournal Event.dropJournal
  let err ← callOutcome env.dropAllBackupDS Event.dropAllBackupDS
  callOutcome (fun h => env.assertError h err) (Event.assertError err)

/-- The builtin `append` on a `[]string` (`none` is the nil slice). -/
def goAppend (s : Option (List String)) (x : String) : Option (List String) :=
  match s with
  | some xs => some (xs ++ [x])
  | none => some [x]

/-- Lines 32-35: `make([]string, 0)` followed by the `range` loop that appends
`dataset.Index` for every dataset. -/
def datasetIndices (datasets : List dataSetT) : Option (List String) :=
  datasets.foldl (fun acc dataset => goAppend acc dataset.Index) (some [])

/-- Lines 37-40: the map literal `templateData`, as its key/value entries. -/
def templateData (jd : HandleT) (datasets : List dataSetT) : List (String × TemplateValue) :=
  [("Prefix", .str jd.tablePrefix), ("Datasets", .strSlice (datasetIndices datasets))]

/-- `func (jd *HandleT) setupDatabaseTables(l lock.LockToken, clearAll bool)` -/
def HandleT.setupDatabaseTables (jd : HandleT) (env : Env) (l : LockToken) (clearAll : Bool) :
    Act Unit := do
  if clearAll then
    jd.dropDatabaseTables env l
  let datasets ← callOutcome (fun h => env.refreshDSList h l) (Event.refreshDSList l)
  let templateData := templateData jd datasets
  let psqlInfo ← callTotal env.GetConnectionString Event.GetConnectionString
  let db : DB := ⟨"postgres", psqlInfo⟩
  let err ← callTotal (fun h => env.sqlOpen h "postgres" psqlInfo)
    (Event.sqlOpen "postgres" psqlInfo)
  if let some e := err then
    goPanic (Errorf_w "Error DB for migrate open: " e)
  withDefer (do let _ ← callTotal (fun h => env.Close h db) (Event.Close db)) do
    let m : Migrator :=
      { Handle := db
        MigrationsTable := jd.SchemaMigrationTable
        ShouldForceSetLowerVersion :=
          GetBool env.configBool "SQLMigrator.forceSetLowerVersion" true }
    let err ← callOutcome (fun h => env.MigrateFromTemplates h m "jobsdb" templateData)
      (Event.MigrateFromTemplates m "jobsdb" templateData)
    if let some e := err then
      goPanic (Errorf_w ("Error while migrating '" ++ jd.tablePrefix ++ "' jobsdb tables: ") e)

/-! ## Observing a run -/

/-- The outcome of an action started in history `h0`. -/
def Act.outcome {α : Type} (a : Act α) (h0 : List Event) : Outcome α := (a h0).1

/-- The external calls an action makes when started in history `h0`, in order. -/
def Act.calls {α : Type} (a : Act α) (h0 : List Event) : List Event :=
  (a h0).2.drop h0.length

/-- The calls that `dropDatabaseTables` makes (directly or through
`dropSchemaMigrationTables`): the log line, the `DROP TABLE` statement, the three
drop operations and `assertError`. -/
def Event.isTeardownCall : Event → Bool
  | .Infof _ => true
  | .Exec _ _ => true
  | .assertError _ _ => true
  | .dropAllDS _ _ => true
  | .dropJournal _ => true
  | .dropAllBackupDS _ => true
  | _ => false

/-- The migrator value built on lines 51-55 for the connection string `s`. -/
def migratorFor (jd : HandleT) (env : Env) (s : String) : Migrator :=
  { Handle := ⟨"postgres", s⟩
    MigrationsTable := jd.SchemaMigrationTable
    ShouldForceSetLowerVersion := GetBool env.configBool "SQLMigrator.forceSetLowerVersion" true }

/-! ## Sample worlds -/

/-- A world in which every call succeeds, `assertError` panics exactly on a
non-nil error, the catalog holds the datasets `ds` until `dropAllDS` has run, and
no configuration key is set. -/
def calmEnv (ds : List dataSetT) : Env where
  Exec := fun _ _ => none
  assertError := fun _ err =>
    match err with
    | none => .ret ()
    | some e => .panic e
  dropAllDS := fun _ _ => .ret none
  dropJournal := fun _ => .ret ()
  dropAllBackupDS := fun _ => .ret none
  refreshDSList := fun h _ => .ret (if h.any Event.isTeardownCall then [] else ds)
  GetConnectionString := fun _ => "host=localhost"
  sqlOpen := fun _ _ _ => none
  MigrateFromTemplates := fun _ _ _ _ => .ret none
  Close := fun _ _ => none
  configBool := fun _ => none

/-- A world like `calmEnv` in which `sql.Open` fails. -/
def noDriverEnv : Env :=
  { calmEnv [] with sqlOpen := fun _ _ _ => some (.plain "sql: unknown driver") }

/-- A world like `calmEnv` in which `MigrateFromTemplates` returns an error. -/
def badMigrationEnv : Env :=
  { calmEnv [] with MigrateFromTemplates := fun _ _ _ _ => .ret (some (.plain "dirty database")) }

/-- A world like `calmEnv` in which the operator has set
`SQLMigrator.forceSetLowerVersion` to `false`. -/
def cautiousEnv : Env :=
  { calmEnv [] with
    configBool := fun key => if key = "SQLMigrator.forceSetLowerVersion" then some false else none }

/-- A handle with table prefix `gw`. -/
def gwHandle : HandleT := ⟨"gw"⟩

/-- Two datasets with indices `1` and `1_1`. -/
def twoDatasets : List dataSetT :=
  [⟨"gw_jobs_1", "gw_job_status_1", "1"⟩, ⟨"gw_jobs_1_1", "gw_job_status_1_1", "1_1"⟩]

end Jobsdb

/-!
# The Job Store contract (spec §3, §4.4, §4.5)

The sources of the Job Store and of the Dataset Catalog are missing.  The
definitions below follow the words of the specification.
-/

namespace JobStore

/-- Modelled from the spec: the states of a status event (§3), since the job
store sources are missing: waiting, executing, succeeded, failed, aborted, or a
terminal-with-reason variant. -/
inductive JobState where
  | waiting
  | executing
  | succeeded
  | failed
  | aborted
  | terminalWithReason (reason : String)
deriving DecidableEq, Repr

/-- Modelled from the spec: the error kinds of §7, since the job store sources
are missing. -/
inductive StoreError where
  | WriteError
  | InvalidTransition
  | NotReady
  | LockTimeout
  | MigrationFailure
deriving DecidableEq, Repr

/-- Modelled from the spec: a job (§3), since the job store sources are missing:
identity, ordering key, opaque payload, payload metadata, creation timestamp. -/
structure Job where
  id : Nat
  orderingKey : String
  payload : String
  metadata : String
  createdAt : Nat
deriving DecidableEq, Repr

/-- Modelled from the spec: a status event (§3), since the job store sources are
missing: job id, state, timestamp, attempt count, nullable error detail, nullable
executing-worker metadata. -/
structure StatusEvent where
  jobID : Nat
  state : JobState
  timestamp : Nat
  attempt : Nat
  errorDetail : Option String
  worker : Option String
deriving DecidableEq, Repr

/-- Modelled from the spec: the lifecycle states of a dataset (§3), since the
catalog sources are missing. -/
inductive DatasetState where
  | activeWritable
  | activeSealed
  | migrating
  | archived
  | dropped
deriving DecidableEq, Repr

/-- Modelled from the spec: a dataset (§3), since the catalog sources are
missing: a totally ordered index, its jobs and its status events (both in the
order they were written), and its lifecycle state. -/
structure Dataset where
  index : Nat
  jobs : List Job
  events : List StatusEvent
  state : DatasetState
deriving DecidableEq, Repr

/-- Modelled from the spec: the storage behind the Job Store, since the job store
sources are missing: the datasets in index order (§4.4 `list()`), and the next
job id, which only grows so that ids are not reused across rotation (§3). -/
structure Store where
  datasets : List Dataset
  nextJobID : Nat
deriving DecidableEq, Repr

/-- Modelled from the spec: whether a dataset holds the job with this id (the
job store sources are missing). -/
def Dataset.hasJob (d : Dataset) (id : Nat) : Bool :=
  d.jobs.any (fun j => j.id == id)

/-- Modelled from the spec: the most recent status event of a job within its
dataset (§3: the current state of a job is the most recent status event for that
job id); the job store sources are missing. -/
def Dataset.currentEvent (d : Dataset) (id : Nat) : Option StatusEvent :=
  (d.events.filter (fun ev => ev.jobID == id)).getLast?

/-- Modelled from the spec: the most recent status event of a job, looked up in
the dataset that holds the job; `none` for a job that does not exist (the job
store sources are missing). -/
def currentEventIn : List Dataset → Nat → Option StatusEvent
  | [], _ => none
  | d :: ds, id => if d.hasJob id then d.currentEvent id else currentEventIn ds id

/-- Modelled from the spec: the current state of a job (§3 invariant); the job
store sources are missing. -/
def Store.currentState (s : Store) (id : Nat) : Option JobState :=
  (currentEventIn s.datasets id).map (fun ev => ev.state)

/-- Modelled from the spec: appending a status event to the dataset that holds
its job; status events are never mutated, only appended (§3).  The job store
sources are missing. -/
def appendEvent : List Dataset → StatusEvent → List Dataset
  | [], _ => []
  | d :: ds, ev =>
    if d.hasJob ev.jobID then { d with events := d.events ++ [ev] } :: ds
    else d :: appendEvent ds ev

/-- Modelled from the spec: the states a job may be moved to by `updateStatus`
(§4.5: succeeded, failed, aborted, the last also in its terminal-with-reason
variant); the job store sources are missing. -/
def JobState.isCompletion : JobState → Bool
  | .succeeded => true
  | .failed => true
  | .aborted => true
  | .terminalWithReason _ => true
  | _ => false

/-- Modelled from the spec: `updateStatus(jobID, newState, detail)` of §4.5, since
the job store sources are missing.  It appends a new status event; only a job
that is currently executing may move to succeeded, failed or aborted; writing a
status for a job that does not exist or is already terminal is the error
`InvalidTransition`. -/
def Store.updateStatus (s : Store) (jobID : Nat) (newState : JobState)
    (detail : Option String) (now : Nat) : Except StoreError Store :=
  match currentEventIn s.datasets jobID with
  | none => .error .InvalidTransition
  | some cur =>
    if cur.state = .executing ∧ newState.isCompletion = true then
      .ok { s with
        datasets := appendEvent s.datasets
          { jobID := jobID, state := newState, timestamp := now, attempt := cur.attempt,
            errorDetail := detail, worker := cur.worker } }
    else .error .InvalidTransition

/-- Modelled from the spec: the filter of `claim` and `query` (§4.5), since the
job store sources are missing: the admitted states and an optional scope by
ordering key. -/
structure Filter where
  states : List JobState
  orderingKey : Option String
deriving DecidableEq, Repr

/-- Modelled from the spec: whether a job in a given current state matches a
filter (§4.5); the job store sources are missing. -/
def Filter.admits (f : Filter) (j : Job) (st : JobState) : Bool :=
  f.states.contains st &&
    (match f.orderingKey with
     | none => true
     | some k => j.orderingKey == k)

/-- Modelled from the spec: whether a job currently matches a filter; a job
without any status event matches no filter.  The job store sources are missing. -/
def Store.matchesNow (s : Store) (f : Filter) (j : Job) : Bool :=
  match s.currentState j.id with
  | some st => f.admits j st
  | none => false

/-- Modelled from the spec: the jobs matching a filter, in dataset-index then
job-id order (§4.5), which is the order of the dataset list and of the jobs within
a dataset.  The job store sources are missing. -/
def Store.eligible (s : Store) (f : Filter) : List Job :=
  (s.datasets.map (fun d => d.jobs.filter (fun j => s.matchesNow f j))).flatten

/-- Modelled from the spec: the status event written by `claim` for one job
(§4.5: the job moves to executing, stamped with attempt count and claim time);
the job store sources are missing. -/
def claimEvent (ds : List Dataset) (worker : Option String) (now : Nat) (j : Job) :
    StatusEvent :=
  { jobID := j.id, state := .executing, timestamp := now,
    attempt := (match currentEventIn ds j.id with
      | some cur => cur.attempt + 1
      | none => 1),
    errorDetail := none, worker := worker }

/-- Modelled from the spec: `claim(filter, limit)` of §4.5, since the job store
sources are missing.  It selects up to `limit` matching jobs in dataset-index then
job-id order and moves them to executing in one step; it returns the jobs with
their new current state. -/
def Store.claim (s : Store) (f : Filter) (limit : Nat) (worker : Option String) (now : Nat) :
    List (Job × JobState) × Store :=
  let picked := (s.eligible f).take limit
  (picked.map (fun j => (j, JobState.executing)),
    { s with
      datasets := picked.foldl (fun ds j => appendEvent ds (claimEvent ds worker now j))
        s.datasets })

/-- Modelled from the spec: what a producer hands to `enqueue` (§3: ordering key,
payload, metadata) together with the time of the call; the job store sources are
missing. -/
structure JobInput where
  orderingKey : String
  payload : String
  metadata : String
  now : Nat
deriving DecidableEq, Repr

/-- Modelled from the spec: writing a job row and its implicit waiting status
event into the current writable dataset (§4.5), `none` when no dataset is
writable.  The job store sources are missing. -/
def enqueueInto (job : Job) (ev : StatusEvent) : List Dataset → Option (List Dataset)
  | [] => none
  | d :: ds =>
    if d.state = .activeWritable then
      some ({ d with jobs := d.jobs ++ [job], events := d.events ++ [ev] } :: ds)
    else (enqueueInto job ev ds).map (fun rest => d :: rest)

/-- Modelled from the spec: the job row written by `enqueue` for an input when
the next id is `id` (§3, §4.5); the job store sources are missing. -/
def jobRow (id : Nat) (inp : JobInput) : Job :=
  { id := id, orderingKey := inp.orderingKey, payload := inp.payload,
    metadata := inp.metadata, createdAt := inp.now }

/-- Modelled from the spec: the implicit waiting status event written by
`enqueue` (§3, §4.5); the job store sources are missing. -/
def waitingEvent (id : Nat) (inp : JobInput) : StatusEvent :=
  { jobID := id, state := .waiting, timestamp := inp.now, attempt := 0,
    errorDetail := none, worker := none }

/-- Modelled from the spec: `enqueue(job)` of §4.5, since the job store sources
are missing.  The job gets the next id; job and waiting event are written
together or not at all; without a writable dataset the call fails with
`WriteError`. -/
def Store.enqueue (s : Store) (inp : JobInput) : Except StoreError (Nat × Store) :=
  match enqueueInto (jobRow s.nextJobID inp) (waitingEvent s.nextJobID inp) s.datasets with
  | none => .error .WriteError
  | some ds => .ok (s.nextJobID, { datasets := ds, nextJobID := s.nextJobID + 1 })

/-- Modelled from the spec: enqueueing several jobs one after the other; it
returns the ids in order.  The job store sources are missing. -/
def Store.enqueueAll (s : Store) : List JobInput → Except StoreError (List Nat × Store)
  | [] => .ok ([], s)
  | inp :: rest =>
    match s.enqueue inp with
    | .error e => .error e
    | .ok (id, s1) =>
      match s1.enqueueAll rest with
      | .error e => .error e
      | .ok (ids, s2) => .ok (id :: ids, s2)

/-- Modelled from the spec: the index of the next dataset, one above the highest
index in use (§4.4); the catalog sources are missing. -/
def nextIndex (ds : List Dataset) : Nat :=
  (ds.map (fun d => d.index)).foldl max 0 + 1

/-- Modelled from the spec: rotation (§4.4), since the catalog sources are
missing.  It seals the writable dataset and adds a new writable dataset with a new
highest index at the tail; existing datasets keep their index and their jobs. -/
def Store.rotate (s : Store) : Store :=
  { s with
    datasets :=
      s.datasets.map (fun d =>
        if d.state = .activeWritable then { d with state := .activeSealed } else d) ++
      [{ index := nextIndex s.datasets, jobs := [], events := [], state := .activeWritable }] }

/-- Modelled from the spec: the opaque cursor of `query` (§4.5), which encodes a
dataset index and the last job id read; the job store sources are missing. -/
structure Cursor where
  datasetIndex : Nat
  lastJobID : Nat
deriving DecidableEq, Repr

/-- Modelled from the spec: whether a job lies after a cursor in dataset-index
then job-id order; no cursor means the start of the scan.  The job store sources
are missing. -/
def isAfter (c : Option Cursor) (datasetIndex jobID : Nat) : Bool :=
  match c with
  | none => true
  | some c =>
    decide (c.datasetIndex < datasetIndex) ||
      (c.datasetIndex == datasetIndex && decide (c.lastJobID < jobID))

/-- Modelled from the spec: the jobs a `query` still has to yield from a cursor
on, each with the index of its dataset, in dataset-index then job-id order (§4.5).
The job store sources are missing. -/
def Store.remaining (s : Store) (f : Filter) (c : Option Cursor) : List (Nat × Job) :=
  (s.datasets.map (fun d =>
    (d.jobs.filter (fun j => isAfter c d.index j.id && s.matchesNow f j)).map
      (fun j => (d.index, j)))).flatten

/-- Modelled from the spec: one step of the lazy sequence of `query`: the next
job and the cursor that points behind it, or `none` at the end of the scan.  The
job store sources are missing. -/
def Store.queryNext (s : Store) (f : Filter) (c : Option Cursor) : Option (Job × Cursor) :=
  match s.remaining f c with
  | [] => none
  | (i, j) :: _ => some (j, { datasetIndex := i, lastJobID := j.id })

/-- Modelled from the spec: reading up to `n` jobs from a cursor on; it returns
the jobs read and the cursor to resume from.  The job store sources are missing. -/
def Store.queryTake (s : Store) (f : Filter) : Option Cursor → Nat → List Job × Option Cursor
  | c, 0 => ([], c)
  | c, n + 1 =>
    match s.queryNext f c with
    | none => ([], c)
    | some (j, c1) =>
      let r := s.queryTake f (some c1) n
      (j :: r.1, r.2)

/-! ## Sample stores -/

/-- A store with one writable dataset `A` (index 1) and no jobs; the first job
gets id 1. -/
def freshStore : Store :=
  { datasets := [{ index := 1, jobs := [], events := [], state := .activeWritable }],
    nextJobID := 1 }

/-- A filter that admits every waiting job. -/
def waitingJobs : Filter := { states := [.waiting], orderingKey := none }

/-- The producer input used in examples. -/
def sampleInput (n : Nat) : JobInput :=
  { orderingKey := "source", payload := "payload", metadata := "meta", now := n }

/-- A store whose dataset `A` holds the waiting jobs 1, 2 and 3. -/
def threeWaiting : Store :=
  { datasets :=
      [{ index := 1
         jobs := [jobRow 1 (sampleInput 10), jobRow 2 (sampleInput 11), jobRow 3 (sampleInput 12)]
         events := [waitingEvent 1 (sampleInput 10), waitingEvent 2 (sampleInput 11),
           waitingEvent 3 (sampleInput 12)]
         state := .activeWritable }]
    nextJobID := 4 }

/-- The store of the rotation scenario before the rotation: dataset `A` holds the
jobs 1 to 5. -/
def beforeRotation (a1 a2 a3 a4 a5 : JobInput) : Store :=
  { datasets :=
      [{ index := 1
         jobs := [jobRow 1 a1, jobRow 2 a2, jobRow 3 a3, jobRow 4 a4, jobRow 5 a5]
         events := [waitingEvent 1 a1, waitingEvent 2 a2, waitingEvent 3 a3,
           waitingEvent 4 a4, waitingEvent 5 a5]
         state := .activeWritable }]
    nextJobID := 6 }

/-- The store of the rotation scenario at its end: dataset `A` is sealed and holds
the jobs 1 to 5, dataset `B` (index 2) is writable and holds the jobs 6 to 8. -/
def afterRotation (a1 a2 a3 a4 a5 b1 b2 b3 : JobInput) : Store :=
  { datasets :=
      [{ index := 1
         jobs := [jobRow 1 a1, jobRow 2 a2, jobRow 3 a3, jobRow 4 a4, jobRow 5 a5]
         events := [waitingEvent 1 a1, waitingEvent 2 a2, waitingEvent 3 a3,
           waitingEvent 4 a4, waitingEvent 5 a5]
         state := .activeSealed },
       { index := 2
         jobs := [jobRow 6 b1, jobRow 7 b2, jobRow 8 b3]
         events := [waitingEvent 6 b1, waitingEvent 7 b2, waitingEvent 8 b3]
         state := .activeWritable }]
    nextJobID := 9 }

end JobStore

/-!
# The Schema Migrator contract (spec §3, §4.3)

The sources of the Schema Migrator are missing.  The definitions below follow the
words of the specification.
-/

namespace SchemaMigrator

/-- Modelled from the spec: one step of the ordered, versioned sequence of
migration steps (§4.3), since the migrator sources are missing. -/
structure MigrationStep where
  version : Nat
  statement : String
deriving DecidableEq, Repr

/-- Modelled from the spec: the storage the migrator works on, since the migrator
sources are missing: the per-prefix migration-version table (§3 Schema Migration
Record; 0 when nothing is recorded) and the writes made so far, each being one
applied step together with its recorded version, which are written in one
transaction (§4.3). -/
structure Database where
  recorded : String → Nat
  writes : List (String × Nat)

/-- Modelled from the spec: how a run of the migrator ends (§4.3, §7), since the
migrator sources are missing: success, or the fatal `MigrationFailure` at a
step. -/
inductive MigrationResult where
  | success
  | MigrationFailure (version : Nat)
deriving DecidableEq, Repr

/-- Modelled from the spec: applying one step to a table-set, which changes the
schema and records the version of the step in the same transaction (§4.3); the
migrator sources are missing. -/
def Database.applyStep (db : Database) (tableSet : String) (step : MigrationStep) : Database :=
  { recorded := fun t => if t = tableSet then step.version else db.recorded t
    writes := db.writes ++ [(tableSet, step.version)] }

/-- Modelled from the spec: the loop of `migrate` over the steps (§4.3), since the
migrator sources are missing.  A step whose version is not above the recorded
version is not applied again; a step that fails ends the run with
`MigrationFailure` and leaves what was committed before. -/
def applySteps (tableSet : String) (stepFails : Nat → Bool) :
    List MigrationStep → Database → Database × MigrationResult
  | [], db => (db, .success)
  | step :: rest, db =>
    if step.version ≤ db.recorded tableSet then applySteps tableSet stepFails rest db
    else if stepFails step.version then (db, .MigrationFailure step.version)
    else applySteps tableSet stepFails rest (db.applyStep tableSet step)

/-- Modelled from the spec: `migrate(tableSetPrefix, targetTemplateSet, context)`
of §4.3, since the migrator sources are missing; `stepFails` tells which steps
fail in the given context. -/
def migrate (db : Database) (tableSetPrefix : String) (targetTemplateSet : List MigrationStep)
    (stepFails : Nat → Bool) : Database × MigrationResult :=
  applySteps tableSetPrefix stepFails targetTemplateSet db

/-- Modelled from the spec: the target version of a template set, the highest
version among its steps (§4.3); the migrator sources are missing. -/
def targetVersion (targetTemplateSet : List MigrationStep) : Nat :=
  (targetTemplateSet.map (fun s => s.version)).foldl max 0

/-- Modelled from the spec: one invocation of the migrator (§4.3); the migrator
sources are missing. -/
structure Run where
  tableSetPrefix : String
  targetTemplateSet : List MigrationStep
  stepFails : Nat → Bool

/-- Modelled from the spec: a history of invocations of the migrator, one after the
other, whatever their results; the migrator sources are missing. -/
def runAll (db : Database) (runs : List Run) : Database :=
  runs.foldl (fun db r => (migrate db r.tableSetPrefix r.targetTemplateSet r.stepFails).1) db

/-- The writes of a database are pairwise different and none lies above the
recorded version of its table-set. -/
def Consistent (db : Database) : Prop :=
  db.writes.Nodup ∧ ∀ w ∈ db.writes, w.2 ≤ db.recorded w.1

/-- A database in which nothing has been migrated. -/
def emptyDatabase : Database :=
  { recorded := fun _ => 0, writes := [] }

/-- Three steps with the versions 1, 2 and 3. -/
def threeSteps : List MigrationStep :=
  [⟨1, "create journal"⟩, ⟨2, "add workspace column"⟩, ⟨3, "add index"⟩]

end SchemaMigrator

/-!
# The Journal contract (spec §3, §4.2, §4.4)

The sources of the Journal and of the Dataset Catalog are missing.  The
definitions below follow the words of the specification.
-/

namespace Journal

/-- Modelled from the spec: the operation types recorded in the journal, since the
journal sources are missing: the two named in §3 and §4.2, creating a dataset and
marking a dataset sealed. -/
inductive OpType where
  | createDataset
  | sealDataset
deriving DecidableEq, Repr

/-- Modelled from the spec: a journal entry `{operation-type, operands,
started-at}` with its entry id (§3, §4.2); the operand is a dataset index.  The
journal sources are missing. -/
structure JournalEntry where
  entryID : Nat
  opType : OpType
  operand : Nat
  startedAt : Nat
deriving DecidableEq, Repr

/-- Modelled from the spec: a dataset as the catalog lists it (§3), by its index
and whether it is sealed; the catalog sources are missing. -/
structure DatasetRow where
  index : Nat
  isSealed : Bool
deriving DecidableEq, Repr

/-- Modelled from the spec: the durable state that survives a process stop, since
the journal and catalog sources are missing: the datasets of the catalog, the
pending journal entries in the order they were begun, and the next entry id. -/
structure System where
  datasets : List DatasetRow
  journal : List JournalEntry
  nextEntryID : Nat
deriving DecidableEq, Repr

/-- Modelled from the spec: `begin(opType, operands) -> entryID` of §4.2, which
writes the entry before the operation starts; the journal sources are missing. -/
def System.begin (s : System) (opType : OpType) (operand now : Nat) : Nat × System :=
  (s.nextEntryID,
    { s with
      journal := s.journal ++
        [{ entryID := s.nextEntryID, opType := opType, operand := operand, startedAt := now }]
      nextEntryID := s.nextEntryID + 1 })

/-- Modelled from the spec: `commit(entryID)` of §4.2, which removes the entry; the
journal sources are missing. -/
def System.commit (s : System) (entryID : Nat) : System :=
  { s with journal := s.journal.filter (fun e => e.entryID != entryID) }

/-- Modelled from the spec: `listPending()` of §4.2; the journal sources are
missing. -/
def System.listPending (s : System) : List JournalEntry :=
  s.journal

/-- Modelled from the spec: creating dataset `n`, which succeeds or confirms that
dataset `n` already exists (§4.2); the catalog sources are missing. -/
def createDataset (datasets : List DatasetRow) (n : Nat) : List DatasetRow :=
  if datasets.any (fun d => d.index == n) then datasets
  else datasets ++ [{ index := n, isSealed := false }]

/-- Modelled from the spec: marking dataset `n` sealed (§4.4); the catalog sources
are missing. -/
def sealDataset (datasets : List DatasetRow) (n : Nat) : List DatasetRow :=
  datasets.map (fun d => if d.index = n then { d with isSealed := true } else d)

/-- Modelled from the spec: driving the operation of a pending entry to completion
(§4.2); the journal sources are missing. -/
def System.redo (s : System) (e : JournalEntry) : System :=
  match e.opType with
  | .createDataset => { s with datasets := createDataset s.datasets e.operand }
  | .sealDataset => { s with datasets := sealDataset s.datasets e.operand }

/-- Modelled from the spec: the replay at process start (§4.2): every pending
entry, in order, is driven to completion and then committed.  The journal sources
are missing. -/
def System.replay (s : System) : System :=
  s.listPending.foldl (fun acc e => (acc.redo e).commit e.entryID) s

/-- Modelled from the spec: the structural operation "create dataset `n`" of §4.4
in its three durable steps: the journal entry is begun, the dataset is created,
the entry is committed.  The catalog sources are missing. -/
def System.createDatasetOp (s : System) (n now : Nat) : System :=
  let begun := s.begin .createDataset n now
  let created := { begun.2 with datasets := createDataset begun.2.datasets n }
  created.commit begun.1

/-- Modelled from the spec: the durable states in which a process can stop after
`begin("create dataset", idx=n)` and before `commit`: with the entry written only,
and with the dataset created as well.  The journal sources are missing. -/
def System.crashStates (s : System) (n now : Nat) : List System :=
  let begun := (s.begin .createDataset n now).2
  [begun, { begun with datasets := createDataset begun.datasets n }]

/-- How often the catalog holds a dataset with index `n`. -/
def System.count (s : System) (n : Nat) : Nat :=
  (s.datasets.filter (fun d => d.index == n)).length

/-- A system with the datasets 1 (sealed) and 2 and no pending entry. -/
def twoDatasetSystem : System :=
  { datasets := [⟨1, true⟩, ⟨2, false⟩], journal := [], nextEntryID := 5 }

/-- The durable state of `twoDatasetSystem` after a stop right behind
`begin("create dataset", idx=3)`. -/
def stoppedAfterBegin : System :=
  (twoDatasetSystem.begin .createDataset 3 100).2

end Journal

/-!
# Router message types (`router/types/types.go`)
-/

namespace RouterTypes

/-- The struct `JobMetadataT`.  `int64` and `int` fields are integers, the raw
JSON of `Secret` is its text, `JobT` is the pointer (`none` is nil) to a job
identified by its id, and `WorkerAssignedTime` is a time in nanoseconds. -/
structure JobMetadataT where
  UserID : String
  JobID : Int
  SourceID : String
  DestinationID : String
  AttemptNum : Int
  ReceivedAt : String
  CreatedAt : String
  FirstAttemptedAt : String
  TransformAt : String
  WorkspaceID : String
  Secret : String
  JobT : Option Int
  WorkerAssignedTime : Int
deriving DecidableEq, Repr

/-- The struct `RouterJobT`; the destination of package `backendconfig` is
identified by its id. -/
structure RouterJobT where
  Message : String
  JobMetadata : JobMetadataT
  Destination : String
deriving DecidableEq, Repr

/-- The struct `DestinationJobT`; `JobMetadataArray` is a slice (`none` is the nil
slice). -/
structure DestinationJobT where
  Message : String
  JobMetadataArray : Option (List JobMetadataT)
  Destination : String
  Batched : Bool
  StatusCode : Int
  Error : String
deriving DecidableEq, Repr

/-- The struct `TransformMessageT`; `Data` is a slice (`none` is the nil slice). -/
structure TransformMessageT where
  Data : Option (List RouterJobT)
  DestType : String
deriving DecidableEq, Repr

/-- The assignment `jobIDs[k] = struct{}{}` on the keys of a `map[int64]struct{}`:
the key is added unless it is already there. -/
def setKey (keys : List Int) (k : Int) : List Int :=
  if k ∈ keys then keys else keys ++ [k]

/-- The elements a `range` loop visits: none for the nil slice. -/
def rangeOf {α : Type} (s : Option (List α)) : List α :=
  match s with
  | some xs => xs
  | none => []

/-- `func (dj *DestinationJobT) JobIDs() map[int64]struct{}`.  The result is the
returned map, given by its keys (`none` would be the nil map), together with the
receiver after the call. -/
def DestinationJobT.JobIDs (dj : DestinationJobT) : Option (List Int) × DestinationJobT :=
  let jobIDs : List Int := []
  let jobIDs := (rangeOf dj.JobMetadataArray).foldl (fun jobIDs md => setKey jobIDs md.JobID) jobIDs
  (some jobIDs, dj)

/-- `func (tm *TransformMessageT) JobIDs() map[int64]struct{}`, as for
`DestinationJobT`. -/
def TransformMessageT.JobIDs (tm : TransformMessageT) : Option (List Int) × TransformMessageT :=
  let jobIDs : List Int := []
  let jobIDs := (rangeOf tm.Data).foldl (fun jobIDs rj => setKey jobIDs rj.JobMetadata.JobID) jobIDs
  (some jobIDs, tm)

end RouterTypes

/-!
# The BigQuery connector (`warehouse/bigquery/bigquery.go`)
-/

namespace Bigquery

/-! ## Go values -/

/-- An `error` value as `bigquery.go` tells them apart: a `*googleapi.Error` with
its `Code` and `Message`, or an error of any other type. -/
inductive BQError where
  | googleapi (Code : Int) (Message : String)
  | other (text : String)
deriving DecidableEq, Repr

/-- Whether the characters `sub` occur as a contiguous block in `s`. -/
def hasBlock : List Char → List Char → Bool
  | [], sub => sub.isEmpty
  | c :: cs, sub => sub.isPrefixOf (c :: cs) || hasBlock cs sub

/-- The library function `strings.Contains(s, substr)`. -/
def stringsContains (s substr : String) : Bool :=
  hasBlock s.data substr.data

/-- The library function `strings.ReplaceAll(s, old, new)` for an `old` that is a
single character: every occurrence of the character is replaced by `new`. -/
def stringsReplaceAllChar (s : String) (old : Char) (new : String) : String :=
  String.mk (s.data.flatMap (fun c => if c = old then new.data else [c]))

/-- Reading a Go map with string keys, given by its entries (`m[k]` with the
comma-ok form). -/
def mapGet {β : Type} : List (String × β) → String → Option β
  | [], _ => none
  | (k1, v1) :: rest, k => if k1 = k then some v1 else mapGet rest k

/-- The assignment `m[k] = v` on a Go map with string keys. -/
def mapSet {β : Type} : List (String × β) → String → β → List (String × β)
  | [], k, v => [(k, v)]
  | (k1, v1) :: rest, k, v =>
    if k1 = k then (k, v) :: rest else (k1, v1) :: mapSet rest k v

/-! ## Type maps -/

/-- The constant `bigquery.BooleanFieldType` of the BigQuery client library. -/
def BooleanFieldType : String := "BOOLEAN"

/-- The constant `bigquery.IntegerFieldType` of the BigQuery client library. -/
def IntegerFieldType : String := "INTEGER"

/-- The constant `bigquery.FloatFieldType` of the BigQuery client library. -/
def FloatFieldType : String := "FLOAT"

/-- The constant `bigquery.StringFieldType` of the BigQuery client library. -/
def StringFieldType : String := "STRING"

/-- The constant `bigquery.TimestampFieldType` of the BigQuery client library. -/
def TimestampFieldType : String := "TIMESTAMP"

/-- `var dataTypesMap`: maps datatype stored in rudder to datatype in bigquery. -/
def dataTypesMap : List (String × String) :=
  [("boolean", BooleanFieldType),
   ("int", IntegerFieldType),
   ("float", FloatFieldType),
   ("string", StringFieldType),
   ("datetime", TimestampFieldType)]

/-- `var dataTypesMapToRudder`: maps datatype in bigquery to datatype stored in
rudder. -/
def dataTypesMapToRudder : List (String × String) :=
  [("BOOLEAN", "boolean"),
   ("BOOL", "boolean"),
   ("INTEGER", "int"),
   ("INT64", "int"),
   ("NUMERIC", "float"),
   ("FLOAT", "float"),
   ("FLOAT64", "float"),
   ("STRING", "string"),
   ("BYTES", "string"),
   ("DATE", "datetime"),
   ("DATETIME", "datetime"),
   ("TIME", "datetime"),
   ("TIMESTAMP", "datetime")]

/-! ## `checkAndIgnoreAlreadyExistError` -/

/-- `func checkAndIgnoreAlreadyExistError(err error) bool`; `none` is the nil
error.  The debug log line does not affect the result and is left out. -/
def checkAndIgnoreAlreadyExistError (err : Option BQError) : Bool :=
  match err with
  | some e =>
    match e with
    | .googleapi Code Message =>
      if Code = 409 ∨ (Code = 400 ∧ stringsContains Message "already exists in schema" = true)
      then true
      else false
    | .other _ => false
  | none => true

/-! ## `partitionedTable` and the append path of `loadTable` -/

/-- `func partitionedTable(tableName, partitionDate string) string` -/
def partitionedTable (tableName partitionDate : String) : String :=
  tableName ++ "$" ++ stringsReplaceAllChar partitionDate '-' ""

/-- The package variables set by `loadConfig`. -/
structure Config where
  setUsersLoadPartitionFirstEventFilter : Bool
  customPartitionsEnabled : Bool
  isUsersTableDedupEnabled : Bool
  isDedupEnabled : Bool
  enableDeleteByJobs : Bool
deriving DecidableEq, Repr

/-- `func dedupEnabled() bool` -/
def dedupEnabled (cfg : Config) : Bool :=
  cfg.isDedupEnabled || cfg.isUsersTableDedupEnabled

/-- Lines 319-326 of the closure `loadTableByAppend`: the partition date stored in
`stagingLoadTable` and the table handed to `Table(outputTable).LoaderFrom`, where
`today` is `time.Now().Format("2006-01-02")`. -/
def loadTableByAppend (cfg : Config) (tableName today : String) : String × String :=
  let partitionDate := today
  let outputTable := tableName
  let outputTable :=
    if !cfg.customPartitionsEnabled then partitionedTable tableName partitionDate
    else outputTable
  (partitionDate, outputTable)

/-- The table a load job of `loadTable` writes to: the output table of the append
path, or the staging table of the merge path. -/
inductive LoadTarget where
  | append (partitionDate outputTable : String)
  | merge (stagingTableName : String)
deriving DecidableEq, Repr

/-- `func (bq *HandleT) loadTable(tableName, _, getLoadFileLocFromTableUploads,
skipTempTableDelete)` up to the choice of the table that is loaded: the error of
`GetSingleLoadFile` (`none` is nil) ends the call before any load; without dedup
the table is loaded by append, otherwise by merge through the staging table, whose
name `warehouseutils.StagingTableName` computes outside this file. -/
def loadTable (cfg : Config) (tableName : String) (getLoadFileLocFromTableUploads : Bool)
    (singleLoadFileErr : Option BQError) (today stagingTableName : String) :
    Except BQError LoadTarget :=
  match getLoadFileLocFromTableUploads, singleLoadFileErr with
  | true, some err => .error err
  | _, _ =>
    if !dedupEnabled cfg then
      .ok (.append (loadTableByAppend cfg tableName today).1
        (loadTableByAppend cfg tableName today).2)
    else .ok (.merge stagingTableName)

/-! ## `FetchSchema` -/

/-- One row of the schema query: table name, column name and data type, each
`none` when the value is not a string (a NULL of the left join). -/
structure Row where
  tName : Option String
  cName : Option String
  cType : Option String
deriving DecidableEq, Repr

/-- The type `warehouseutils.SchemaT`, a map from table name to a map from column
name to type, given by its entries. -/
abbrev SchemaT := List (String × List (String × String))

/-- The type assertion `v, _ = value.(string)`: the string, or the empty string
when the value is not a string. -/
def asString (v : Option String) : String :=
  match v with
  | some s => s
  | none => ""

/-- Lines 906-908 of `FetchSchema`: the table gets an empty column map unless it
is already in the schema. -/
def ensureTable (schema : SchemaT) (tName : String) : SchemaT :=
  match mapGet schema tName with
  | none => mapSet schema tName []
  | some _ => schema

/-- Lines 904-916 of `FetchSchema`, the body of the loop for one row; `ToLower`
is the library function `strings.ToLower`.  The counter of missing datatypes does
not affect the result and is left out. -/
def processRow (ToLower : String → String) (schema : SchemaT) (values : Row) : SchemaT :=
  let tName := asString values.tName
  let schema := ensureTable schema tName
  let cName := asString values.cName
  let cType := asString values.cType
  match mapGet dataTypesMapToRudder cType with
  | some datatype =>
    match mapGet schema tName with
    | some columns => mapSet schema tName (mapSet columns (ToLower cName) datatype)
    | none => schema
  | none => schema

/-- Lines 894-919 of `FetchSchema`: the loop over the row iterator.  The list holds
what `it.Next` returns call by call, and `iterator.Done` follows its last entry. -/
def readRows (ToLower : String → String) :
    List (Except BQError Row) → SchemaT → Option SchemaT × Option BQError
  | [], schema => (some schema, none)
  | .error err :: _, _ => (none, some err)
  | .ok values :: rest, schema => readRows ToLower rest (processRow ToLower schema values)

/-- What `FetchSchema` gets from outside: the error of `bq.connect` (`none` is
nil), the result of `query.Read`, and `strings.ToLower`. -/
structure FetchEnv where
  connect : Option BQError
  read : Except BQError (List (Except BQError Row))
  ToLower : String → String

/-- `func (bq *HandleT) FetchSchema(warehouse) (schema SchemaT, err error)`: the
two results, where `none` is the nil schema and the nil error. -/
def FetchSchema (env : FetchEnv) : Option SchemaT × Option BQError :=
  match env.connect with
  | some err => (none, some err)
  | none =>
    let schema : SchemaT := []
    match env.read with
    | .error err =>
      match err with
      | .googleapi Code Message =>
        if Code = 404 then (some schema, none)
        else (some schema, some (.googleapi Code Message))
      | .other text => (some schema, some (.other text))
    | .ok it => readRows env.ToLower it schema

/-- The column type recorded in a schema for a table and a column. -/
def columnType (schema : SchemaT) (table column : String) : Option String :=
  match mapGet schema table with
  | some columns => mapGet columns column
  | none => none

/-! ## Sample values -/

/-- Lower-casing of the letters `A` to `Z`, which is what `strings.ToLower` does
on ASCII text. -/
def asciiLower (s : String) : String :=
  String.mk (s.data.map Char.toLower)

/-- An environment in which the schema query fails with the given error. -/
def failingRead (err : BQError) : FetchEnv :=
  { connect := none, read := .error err, ToLower := asciiLower }

/-- An environment in which the schema query yields the given rows. -/
def yielding (rows : List Row) : FetchEnv :=
  { connect := none, read := .ok (rows.map .ok), ToLower := asciiLower }

/-- Rows of a table `tracks` with a known and an unknown data type, and of a
table without columns. -/
def sampleRows : List Row :=
  [⟨some "tracks", some "ID", some "STRING"⟩,
   ⟨some "tracks", some "Loc", some "GEOGRAPHY"⟩,
   ⟨some "pages", none, none⟩]

/-! ## `DownloadIdentityRules` -/

/-- What `Table(tableName).Metadata` returns on success, as far as
`DownloadIdentityRules` reads it: the number of rows and the names of the columns
of the schema. -/
structure TableMetadata where
  NumRows : Nat
  Schema : List String
deriving DecidableEq, Repr

/-- `func (bq *HandleT) tableExists(tableName string) (exists bool, err error)`,
given the result of its `Metadata` call; `none` is the nil error. -/
def tableExists (metadata : Except BQError TableMetadata) : Bool × Option BQError :=
  match metadata with
  | .ok _ => (true, none)
  | .error err =>
    match err with
    | .googleapi Code Message =>
      if Code = 404 then (false, none) else (false, some (.googleapi Code Message))
    | .other text => (false, some (.other text))

/-- `func (bq *HandleT) columnExists(columnName, tableName string) (exists bool,
err error)`, given the result of its `Metadata` call. -/
def columnExists (metadata : Except BQError TableMetadata) (columnName : String) :
    Bool × Option BQError :=
  match metadata with
  | .error err => (false, some err)
  | .ok tableMetadata => (tableMetadata.Schema.any (fun column => column = columnName), none)

/-- Lines 997-1007 of `getFromTable`: the select list, or `none` when the closure
returns nil because neither column is present. -/
def toSelectFields (hasAnonymousID hasUserID : Bool) : Option String :=
  if hasAnonymousID && hasUserID then some "anonymous_id, user_id"
  else if hasAnonymousID then some "anonymous_id, null as user_id"
  else if hasUserID then some "null as anonymous_id\", user_id"
  else none

/-- The verb `%d` of `fmt.Sprintf` for a number that is not negative. -/
def formatDecimal (n : Nat) : String :=
  String.mk (Nat.toDigits 10 n)

/-- Line 1012 of `getFromTable`: the statement of one batch. -/
def identitySqlStatement (toSelectFields bqNamespace tableName : String) (batchSize offset : Nat) :
    String :=
  "SELECT DISTINCT " ++ toSelectFields ++ " FROM " ++ bqNamespace ++ "." ++ tableName ++
    " LIMIT " ++ formatDecimal batchSize ++ " OFFSET " ++ formatDecimal offset

/-- How the closure `getFromTable` proceeds up to its first query: it returns
before any query with an error (`none` is nil), or it issues the statement of the
first batch. -/
inductive FirstStep where
  | returned (err : Option BQError)
  | query (sqlStatement : String)
deriving DecidableEq, Repr

/-- Lines 975-1015 of the closure `getFromTable` of `DownloadIdentityRules`, up to
the first `bq.db.Query(sqlStatement)`; `Metadata k` is the result of the `k`-th
call of `Table(tableName).Metadata` (in `tableExists`, in the closure, and in the
two calls of `columnExists`). -/
def getFromTable (Metadata : Nat → Except BQError TableMetadata) (bqNamespace tableName : String) :
    FirstStep :=
  match tableExists (Metadata 0) with
  | (_, some err) => .returned (some err)
  | (false, none) => .returned none
  | (true, none) =>
    match Metadata 1 with
    | .error err => .returned (some err)
    | .ok _ =>
      match columnExists (Metadata 2) "anonymous_id" with
      | (_, some err) => .returned (some err)
      | (hasAnonymousID, none) =>
        match columnExists (Metadata 3) "user_id" with
        | (_, some err) => .returned (some err)
        | (hasUserID, none) =>
          match toSelectFields hasAnonymousID hasUserID with
          | none => .returned none
          | some fields => .query (identitySqlStatement fields bqNamespace tableName 10000 0)

/-- A table whose metadata can always be read and lists the given columns. -/
def tableWith (columns : List String) : Nat → Except BQError TableMetadata :=
  fun _ => .ok { NumRows := 3, Schema := columns }

end Bigquery

/-!
# The warehouse upload API (`warehouse/api.go`, `warehouse/warehousegrpc.go`)
-/

namespace Warehouse

/-- The handle `*sql.DB`, identified by its data source. -/
structure SqlDB where
  dataSourceName : String
deriving DecidableEq, Repr

/-- A value of the interface `logger.LoggerI`, identified by its name. -/
structure LoggerI where
  name : String
deriving DecidableEq, Repr

/-- The struct `UploadAPIT`; `none` is the nil pointer or the nil interface, and
the connection manager is identified by its service name. -/
structure UploadAPIT where
  enabled : Bool
  dbHandle : Option SqlDB
  log : Option LoggerI
  connectionManager : Option String
deriving DecidableEq, Repr

/-- The struct `UploadReqT`; `UploadId` is an `int64`. -/
structure UploadReqT where
  UploadId : Int
  API : UploadAPIT
deriving DecidableEq, Repr

/-- The struct `TableUploadReqT`; `UploadID` is an `int64`. -/
structure TableUploadReqT where
  UploadID : Int
  Name : String
  API : UploadAPIT
deriving DecidableEq, Repr

/-- `func (tableUploadReq TableUploadReqT) validateReq() error`; the result is the
message of the error, `none` is nil. -/
def TableUploadReqT.validateReq (tableUploadReq : TableUploadReqT) : Option String :=
  if !tableUploadReq.API.enabled || tableUploadReq.API.log == none ||
      tableUploadReq.API.dbHandle == none then
    some "warehouse api's are not initialized"
  else if tableUploadReq.UploadID = 0 then
    some "upload_id is empty or should be greater than 0 "
  else none

/-- `func (uploadReq UploadReqT) validateReq() error`; the result is the message
of the error, `none` is nil. -/
def UploadReqT.validateReq (uploadReq : UploadReqT) : Option String :=
  if !uploadReq.API.enabled || uploadReq.API.log == none || uploadReq.API.dbHandle == none then
    some "warehouse api's are not initialized"
  else if uploadReq.UploadId < 1 then
    some "upload_id is empty or should be greater than 0 "
  else none

/-- A value of a JSON object (`interface{}` after `json.Unmarshal`). -/
inductive JSONValue where
  | null
  | bool (b : Bool)
  | number (n : Int)
  | string (s : String)
deriving DecidableEq, Repr

/-- The struct `ObjectStorageValidationRequest`; the field `Type` is named `Typ`
here, and `Config` is a map given by its entries. -/
structure ObjectStorageValidationRequest where
  Typ : String
  Config : List (String × JSONValue)
deriving DecidableEq, Repr

/-- The two codes of `google.golang.org/genproto/googleapis/rpc/code` used in
`validateObjectStorageRequestBody`. -/
inductive Code where
  | INTERNAL
  | INVALID_ARGUMENT
deriving DecidableEq, Repr

/-- An error built by `status.Errorf(code, format, args...)`: its code and its
formatted message. -/
structure StatusError where
  code : Code
  message : String
deriving DecidableEq, Repr

/-- What `validateObjectStorageRequestBody` calls and does not define:
`json.Marshal` on the request (bytes or the message of an error), `json.Unmarshal`
into an `ObjectStorageValidationRequest`, and `checkMapForValidKey` of this
package. -/
structure BodyEnv (ρ : Type) where
  Marshal : ρ → Except String String
  Unmarshal : String → Except String ObjectStorageValidationRequest
  checkMapForValidKey : List (String × JSONValue) → String → Bool

/-- Lines 115-126: the `switch r.Type` that sets `err`; the result is the message
of the error, `none` is nil. -/
def typeError {ρ : Type} (env : BodyEnv ρ) (r : ObjectStorageValidationRequest) :
    Option String :=
  if r.Typ = "AZURE_BLOB" then
    if !env.checkMapForValidKey r.Config "containerName" then
      some "containerName invalid or not present"
    else none
  else if r.Typ = "GCS" ∨ r.Typ = "MINIO" ∨ r.Typ = "S3" ∨ r.Typ = "DIGITAL_OCEAN_SPACES" then
    if !env.checkMapForValidKey r.Config "bucketName" then
      some "bucketName invalid or not present"
    else none
  else some ("type: " ++ r.Typ ++ " not supported")

/-- `func validateObjectStorageRequestBody(request) (*ObjectStorageValidationRequest,
error)`: the decoded request, or the error (the pointer is nil then). -/
def validateObjectStorageRequestBody {ρ : Type} (env : BodyEnv ρ) (request : ρ) :
    Except StatusError ObjectStorageValidationRequest :=
  match env.Marshal request with
  | .error err =>
    .error ⟨.INTERNAL, "unable to marshal the request proto message with error: " ++ err⟩
  | .ok byt =>
    match env.Unmarshal byt with
    | .error err =>
      .error ⟨.INTERNAL, "unable to extract data into validation request with error: " ++ err⟩
    | .ok r =>
      match typeError env r with
      | some err => .error ⟨.INVALID_ARGUMENT, "invalid argument err: " ++ err⟩
      | none => .ok r

/-! ## Sample values -/

/-- An API that `InitWarehouseAPI` has set up. -/
def readyAPI : UploadAPIT :=
  { enabled := true, dbHandle := some ⟨"warehouse-db"⟩, log := some ⟨"warehouse"⟩,
    connectionManager := some "warehouse" }

/-- A key is valid when the map holds a non-empty string for it. -/
def nonEmptyString (config : List (String × JSONValue)) (key : String) : Bool :=
  match config.lookup key with
  | some (.string s) => s != ""
  | _ => false

/-- An environment whose request is the decoded request itself and whose JSON
steps never fail. -/
def directEnv : BodyEnv ObjectStorageValidationRequest :=
  { Marshal := fun r => .ok r.Typ
    Unmarshal := fun typ =>
      .ok { Typ := typ, Config := [("bucketName", .string "rudder-logs")] }
    checkMapForValidKey := nonEmptyString }

end Warehouse

/-! # Theorems -/

namespace Jobsdb

/-! ## Stepping lemmas for actions -/

theorem seq_eq {α β : Type} (m : Act α) (f : α → Act β) : (m >>= f) = Act.seq m f := rfl

theorem pure_eq {α : Type} (a : α) : (pure a : Act α) = Act.ret a := rfl

theorem seq_assoc {α β γ : Type} (m : Act α) (f : α → Act β) (g : β → Act γ) :
    Act.seq (Act.seq m f) g = Act.seq m (fun a => Act.seq (f a) g) := by
  funext h
  simp only [Act.seq]
  rcases m h with ⟨r, h1⟩
  cases r <;> rfl

theorem ret_seq {α β : Type} (a : α) (k : α → Act β) (h : List Event) :
    Act.seq (Act.ret a) k h = k a h := rfl

theorem goPanic_run {α : Type} (v : GoError) (h : List Event) :
    (goPanic v : Act α) h = (.panic v, h) := rfl

theorem goPanic_seq {α β : Type} (v : GoError) (k : α → Act β) (h : List Event) :
    Act.seq (goPanic v) k h = (.panic v, h) := rfl

theorem withDefer_run {α : Type} (d : Act Unit) (body : Act α) (h : List Event) :
    withDefer d body h = ((body h).1, (d (body h).2).2) := rfl

theorem callTotal_seq {α β : Type} (f : List Event → α) (ev : α → Event) (k : α → Act β)
    (h : List Event) : Act.seq (callTotal f ev) k h = k (f h) (h ++ [ev (f h)]) := rfl

theorem callOutcome_seq {α β : Type} (f : List Event → Outcome α) (ev : Outcome α → Event)
    (k : α → Act β) (h : List Event) :
    Act.seq (callOutcome f ev) k h =
      match f h with
      | .ret a => k a (h ++ [ev (.ret a)])
      | .panic v => (.panic v, h ++ [ev (.panic v)]) := by
  simp only [Act.seq, callOutcome]
  cases f h <;> rfl

theorem callOutcome_run {α : Type} (f : List Event → Outcome α) (ev : Outcome α → Event)
    (h : List Event) :
    callOutcome f ev h =
      match f h with
      | .ret a => (.ret a, h ++ [ev (.ret a)])
      | .panic v => (.panic v, h ++ [ev (.panic v)]) := by
  simp only [callOutcome]
  cases f h <;> rfl

theorem run_calls {α : Type} (a : Act α) (h0 new : List Event) (r : Outcome α)
    (h : a h0 = (r, h0 ++ new)) : a.outcome h0 = r ∧ a.calls h0 = new := by
  simp [Act.outcome, Act.calls, h]

/-! ## The runs of `dropDatabaseTables` and `setupDatabaseTables` -/

/-- Every run of `dropDatabaseTables` is one of seven sequences of calls: it stops
at the first panicking call, or makes all eight calls and returns. -/
theorem drop_run (jd : HandleT) (env : Env) (l : LockToken) (h0 : List Event) :
    (∃ e1 v, jd.dropDatabaseTables env l h0 = (.panic v, h0 ++
        [.Infof ("[JobsDB:" ++ jd.tablePrefix ++ "] Dropping all database tables"),
          .Exec ("DROP TABLE IF EXISTS " ++ jd.SchemaMigrationTable) e1,
          .assertError e1 (.panic v)])) ∨
    (∃ e1 v, jd.dropDatabaseTables env l h0 = (.panic v, h0 ++
        [.Infof ("[JobsDB:" ++ jd.tablePrefix ++ "] Dropping all database tables"),
          .Exec ("DROP TABLE IF EXISTS " ++ jd.SchemaMigrationTable) e1,
          .assertError e1 (.ret ()), .dropAllDS l (.panic v)])) ∨
    (∃ e1 e2 v, jd.dropDatabaseTables env l h0 = (.panic v, h0 ++
        [.Infof ("[JobsDB:" ++ jd.tablePrefix ++ "] Dropping all database tables"),
          .Exec ("DROP TABLE IF EXISTS " ++ jd.SchemaMigrationTable) e1,
          .assertError e1 (.ret ()), .dropAllDS l (.ret e2), .assertError e2 (.panic v)])) ∨
    (∃ e1 e2 v, jd.dropDatabaseTables env l h0 = (.panic v, h0 ++
        [.Infof ("[JobsDB:" ++ jd.tablePrefix ++ "] Dropping all database tables"),
          .Exec ("DROP TABLE IF EXISTS " ++ jd.SchemaMigrationTable) e1,
          .assertError e1 (.ret ()), .dropAllDS l (.ret e2), .assertError e2 (.ret ()),
          .dropJournal (.panic v)])) ∨
    (∃ e1 e2 v, jd.dropDatabaseTables env l h0 = (.panic v, h0 ++
        [.Infof ("[JobsDB:" ++ jd.tablePrefix ++ "] Dropping all database tables"),
          .Exec ("DROP TABLE IF EXISTS " ++ jd.SchemaMigrationTable) e1,
          .assertError e1 (.ret ()), .dropAllDS l (.ret e2), .assertError e2 (.ret ()),
          .dropJournal (.ret ()), .dropAllBackupDS (.panic v)])) ∨
    (∃ e1 e2 e3 v, jd.dropDatabaseTables env l h0 = (.panic v, h0 ++
        [.Infof ("[JobsDB:" ++ jd.tablePrefix ++ "] Dropping all database tables"),
          .Exec ("DROP TABLE IF EXISTS " ++ jd.SchemaMigrationTable) e1,
          .assertError e1 (.ret ()), .dropAllDS l (.ret e2), .assertError e2 (.ret ()),
          .dropJournal (.ret ()), .dropAllBackupDS (.ret e3), .assertError e3 (.panic v)])) ∨
    (∃ e1 e2 e3, jd.dropDatabaseTables env l h0 = (.ret (), h0 ++
        [.Infof ("[JobsDB:" ++ jd.tablePrefix ++ "] Dropping all database tables"),
          .Exec ("DROP TABLE IF EXISTS " ++ jd.SchemaMigrationTable) e1,
          .assertError e1 (.ret ()), .dropAllDS l (.ret e2), .assertError e2 (.ret ()),
          .dropJournal (.ret ()), .dropAllBackupDS (.ret e3), .assertError e3 (.ret ())])) := by
  simp only [HandleT.dropDatabaseTables, HandleT.dropSchemaMigrationTables, seq_eq, seq_assoc,
    callTotal_seq, callOutcome_seq, callOutcome_run, List.append_assoc,
    List.singleton_append, List.cons_append, List.nil_append]
  split
  · split
    · split
      · split
        · split
          · split
            · exact Or.inr (Or.inr (Or.inr (Or.inr (Or.inr (Or.inr ⟨_, _, _, rfl⟩)))))
            · exact Or.inr (Or.inr (Or.inr (Or.inr (Or.inr (Or.inl ⟨_, _, _, _, rfl⟩)))))
          · exact Or.inr (Or.inr (Or.inr (Or.inr (Or.inl ⟨_, _, _, rfl⟩))))
        · exact Or.inr (Or.inr (Or.inr (Or.inl ⟨_, _, _, rfl⟩)))
      · exact Or.inr (Or.inr (Or.inl ⟨_, _, _, rfl⟩))
    · exact Or.inr (Or.inl ⟨_, _, rfl⟩)
  · exact Or.inl ⟨_, _, rfl⟩

/-- A run of `dropDatabaseTables` only extends the history, with teardown calls
whose lock token is the one it was given. -/
theorem drop_calls (jd : HandleT) (env : Env) (l : LockToken) (h0 : List Event) :
    ∃ pre, jd.dropDatabaseTables env l h0 = ((jd.dropDatabaseTables env l).outcome h0, h0 ++ pre) ∧
      (∀ e ∈ pre, e.isTeardownCall = true) ∧
      (∀ t r, Event.dropAllDS t r ∈ pre → t = l) := by
  rcases drop_run jd env l h0 with ⟨e1, v, h⟩ | ⟨e1, v, h⟩ | ⟨e1, e2, v, h⟩ | ⟨e1, e2, v, h⟩ |
    ⟨e1, e2, v, h⟩ | ⟨e1, e2, e3, v, h⟩ | ⟨e1, e2, e3, h⟩ <;>
  exact ⟨_, by rw [Act.outcome, h], by simp [Event.isTeardownCall], by simp⟩

/-- With `clearAll` set, `setupDatabaseTables` first runs `dropDatabaseTables` and
continues as with `clearAll` unset only when that returned. -/
theorem setup_true (jd : HandleT) (env : Env) (l : LockToken) (h0 : List Event) :
    jd.setupDatabaseTables env l true h0 =
      match jd.dropDatabaseTables env l h0 with
      | (.ret _, h1) => jd.setupDatabaseTables env l false h1
      | (.panic v, h1) => (.panic v, h1) := by
  simp only [HandleT.setupDatabaseTables, seq_eq, pure_eq, if_true, Bool.false_eq_true, if_false]
  simp only [Act.seq, Act.ret]
  rcases jd.dropDatabaseTables env l h0 with ⟨r, h1⟩
  cases r <;> rfl

/-- Every run of `setupDatabaseTables` without `clearAll` is one of five sequences
of calls. -/
theorem setup_false (jd : HandleT) (env : Env) (l : LockToken) (h : List Event) :
    (∃ v, env.refreshDSList h l = .panic v ∧
      jd.setupDatabaseTables env l false h = (.panic v, h ++ [.refreshDSList l (.panic v)])) ∨
    (∃ ds s e, env.refreshDSList h l = .ret ds ∧
      jd.setupDatabaseTables env l false h =
        (.panic (Errorf_w "Error DB for migrate open: " e),
          h ++ [.refreshDSList l (.ret ds), .GetConnectionString s,
            .sqlOpen "postgres" s (some e)])) ∨
    (∃ ds s v c, env.refreshDSList h l = .ret ds ∧
      jd.setupDatabaseTables env l false h =
        (.panic v,
          h ++ [.refreshDSList l (.ret ds), .GetConnectionString s, .sqlOpen "postgres" s none,
            .MigrateFromTemplates (migratorFor jd env s) "jobsdb" (templateData jd ds) (.panic v),
            .Close ⟨"postgres", s⟩ c])) ∨
    (∃ ds s e c, env.refreshDSList h l = .ret ds ∧
      jd.setupDatabaseTables env l false h =
        (.panic (Errorf_w ("Error while migrating '" ++ jd.tablePrefix ++ "' jobsdb tables: ") e),
          h ++ [.refreshDSList l (.ret ds), .GetConnectionString s, .sqlOpen "postgres" s none,
            .MigrateFromTemplates (migratorFor jd env s) "jobsdb" (templateData jd ds)
              (.ret (some e)),
            .Close ⟨"postgres", s⟩ c])) ∨
    (∃ ds s c, env.refreshDSList h l = .ret ds ∧
      jd.setupDatabaseTables env l false h =
        (.ret (),
          h ++ [.refreshDSList l (.ret ds), .GetConnectionString s, .sqlOpen "postgres" s none,
            .MigrateFromTemplates (migratorFor jd env s) "jobsdb" (templateData jd ds)
              (.ret none),
            .Close ⟨"postgres", s⟩ c])) := by
  simp only [HandleT.setupDatabaseTables, seq_eq, pure_eq, Bool.false_eq_true, if_false,
    ret_seq, callOutcome_seq, callTotal_seq, migratorFor, List.append_assoc,
    List.singleton_append, List.cons_append, List.nil_append]
  rcases hr : env.refreshDSList h l with ds | v
  · dsimp only
    generalize env.GetConnectionString _ = s
    rcases env.sqlOpen _ "postgres" s with _ | e
    · simp only [ret_seq, withDefer_run, callOutcome_seq, callTotal_seq]
      rcases env.MigrateFromTemplates _ _ _ _ with me | v
      · cases me with
        | none =>
          simp only [goPanic_run, Act.ret, List.append_assoc, List.cons_append, List.nil_append]
          exact Or.inr (Or.inr (Or.inr (Or.inr ⟨_, _, _, rfl, rfl⟩)))
        | some e =>
          simp only [goPanic_run, Act.ret, List.append_assoc, List.cons_append, List.nil_append]
          exact Or.inr (Or.inr (Or.inr (Or.inl ⟨_, _, _, _, rfl, rfl⟩)))
      · simp only [goPanic_run, Act.ret, List.append_assoc, List.cons_append, List.nil_append]
        exact Or.inr (Or.inr (Or.inl ⟨_, _, _, _, rfl, rfl⟩))
    · simp only [goPanic_seq]
      exact Or.inr (Or.inl ⟨_, _, _, rfl, rfl⟩)
  · exact Or.inl ⟨v, rfl, rfl⟩


theorem datasetIndices_foldl (datasets : List dataSetT) (acc : List String) :
    datasets.foldl (fun acc dataset => goAppend acc dataset.Index) (some acc) =
      some (acc ++ datasets.map (fun d => d.Index)) := by
  induction datasets generalizing acc with
  | nil => simp
  | cons d ds ih =>
    rw [List.foldl_cons, show goAppend (some acc) d.Index = some (acc ++ [d.Index]) from rfl, ih]
    simp

theorem datasetIndices_eq (datasets : List dataSetT) :
    datasetIndices datasets = some (datasets.map (fun d => d.Index)) := by
  simpa [datasetIndices] using datasetIndices_foldl datasets []

/-- The calls of `setupDatabaseTables` are the calls of the teardown (none when
`clearAll` is unset) followed by one of the five tails of `setup_false`; the tail
is empty when the teardown panicked. -/
theorem setup_calls (jd : HandleT) (env : Env) (l : LockToken) (clearAll : Bool)
    (h0 : List Event) :
    ∃ pre tl,
      (jd.setupDatabaseTables env l clearAll).calls h0 = pre ++ tl ∧
      (clearAll = false → pre = []) ∧
      (clearAll = true → jd.dropDatabaseTables env l h0 =
        ((jd.dropDatabaseTables env l).outcome h0, h0 ++ pre)) ∧
      (∀ e ∈ pre, e.isTeardownCall = true) ∧
      (∀ t r, Event.dropAllDS t r ∈ pre → t = l) ∧
      ((clearAll = true ∧ tl = [] ∧ ∃ v, (jd.dropDatabaseTables env l).outcome h0 = .panic v ∧
          (jd.setupDatabaseTables env l clearAll).outcome h0 = .panic v) ∨
       ((clearAll = true → (jd.dropDatabaseTables env l).outcome h0 = .ret ()) ∧
        ((∃ v, env.refreshDSList (h0 ++ pre) l = .panic v ∧
            tl = [.refreshDSList l (.panic v)] ∧
            (jd.setupDatabaseTables env l clearAll).outcome h0 = .panic v) ∨
         (∃ ds s e, env.refreshDSList (h0 ++ pre) l = .ret ds ∧
            tl = [.refreshDSList l (.ret ds), .GetConnectionString s,
              .sqlOpen "postgres" s (some e)] ∧
            (jd.setupDatabaseTables env l clearAll).outcome h0 =
              .panic (Errorf_w "Error DB for migrate open: " e)) ∨
         (∃ ds s v c, env.refreshDSList (h0 ++ pre) l = .ret ds ∧
            tl = [.refreshDSList l (.ret ds), .GetConnectionString s,
              .sqlOpen "postgres" s none,
              .MigrateFromTemplates (migratorFor jd env s) "jobsdb" (templateData jd ds)
                (.panic v),
              .Close ⟨"postgres", s⟩ c] ∧
            (jd.setupDatabaseTables env l clearAll).outcome h0 = .panic v) ∨
         (∃ ds s e c, env.refreshDSList (h0 ++ pre) l = .ret ds ∧
            tl = [.refreshDSList l (.ret ds), .GetConnectionString s,
              .sqlOpen "postgres" s none,
              .MigrateFromTemplates (migratorFor jd env s) "jobsdb" (templateData jd ds)
                (.ret (some e)),
              .Close ⟨"postgres", s⟩ c] ∧
            (jd.setupDatabaseTables env l clearAll).outcome h0 =
              .panic (Errorf_w
                ("Error while migrating '" ++ jd.tablePrefix ++ "' jobsdb tables: ") e)) ∨
         (∃ ds s c, env.refreshDSList (h0 ++ pre) l = .ret ds ∧
            tl = [.refreshDSList l (.ret ds), .GetConnectionString s,
              .sqlOpen "postgres" s none,
              .MigrateFromTemplates (migratorFor jd env s) "jobsdb" (templateData jd ds)
                (.ret none),
              .Close ⟨"postgres", s⟩ c] ∧
            (jd.setupDatabaseTables env l clearAll).outcome h0 = .ret ())))) := by
  have tail : ∀ pre : List Event,
      jd.setupDatabaseTables env l clearAll h0 = jd.setupDatabaseTables env l false (h0 ++ pre) →
      ∃ tl, (jd.setupDatabaseTables env l clearAll).calls h0 = pre ++ tl ∧
        ((∃ v, env.refreshDSList (h0 ++ pre) l = .panic v ∧
            tl = [.refreshDSList l (.panic v)] ∧
            (jd.setupDatabaseTables env l clearAll).outcome h0 = .panic v) ∨
         (∃ ds s e, env.refreshDSList (h0 ++ pre) l = .ret ds ∧
            tl = [.refreshDSList l (.ret ds), .GetConnectionString s,
              .sqlOpen "postgres" s (some e)] ∧
            (jd.setupDatabaseTables env l clearAll).outcome h0 =
              .panic (Errorf_w "Error DB for migrate open: " e)) ∨
         (∃ ds s v c, env.refreshDSList (h0 ++ pre) l = .ret ds ∧
            tl = [.refreshDSList l (.ret ds), .GetConnectionString s,
              .sqlOpen "postgres" s none,
              .MigrateFromTemplates (migratorFor jd env s) "jobsdb" (templateData jd ds)
                (.panic v),
              .Close ⟨"postgres", s⟩ c] ∧
            (jd.setupDatabaseTables env l clearAll).outcome h0 = .panic v) ∨
         (∃ ds s e c, env.refreshDSList (h0 ++ pre) l = .ret ds ∧
            tl = [.refreshDSList l (.ret ds), .GetConnectionString s,
              .sqlOpen "postgres" s none,
              .MigrateFromTemplates (migratorFor jd env s) "jobsdb" (templateData jd ds)
                (.ret (some e)),
              .Close ⟨"postgres", s⟩ c] ∧
            (jd.setupDatabaseTables env l clearAll).outcome h0 =
              .panic (Errorf_w
                ("Error while migrating '" ++ jd.tablePrefix ++ "' jobsdb tables: ") e)) ∨
         (∃ ds s c, env.refreshDSList (h0 ++ pre) l = .ret ds ∧
            tl = [.refreshDSList l (.ret ds), .GetConnectionString s,
              .sqlOpen "postgres" s none,
              .MigrateFromTemplates (migratorFor jd env s) "jobsdb" (templateData jd ds)
                (.ret none),
              .Close ⟨"postgres", s⟩ c] ∧
            (jd.setupDatabaseTables env l clearAll).outcome h0 = .ret ())) := by
    intro pre hS
    rcases setup_false jd env l (h0 ++ pre) with ⟨v, hr, h⟩ | ⟨ds, s, e, hr, h⟩ |
      ⟨ds, s, v, c, hr, h⟩ | ⟨ds, s, e, c, hr, h⟩ | ⟨ds, s, c, hr, h⟩ <;>
    rw [← hS, List.append_assoc] at h <;>
    obtain ⟨ho, hc⟩ := run_calls _ _ _ _ h
    · exact ⟨_, hc, Or.inl ⟨v, hr, rfl, ho⟩⟩
    · exact ⟨_, hc, Or.inr (Or.inl ⟨ds, s, e, hr, rfl, ho⟩)⟩
    · exact ⟨_, hc, Or.inr (Or.inr (Or.inl ⟨ds, s, v, c, hr, rfl, ho⟩))⟩
    · exact ⟨_, hc, Or.inr (Or.inr (Or.inr (Or.inl ⟨ds, s, e, c, hr, rfl, ho⟩)))⟩
    · exact ⟨_, hc, Or.inr (Or.inr (Or.inr (Or.inr ⟨ds, s, c, hr, rfl, ho⟩)))⟩
  cases clearAll with
  | false =>
    obtain ⟨tl, hc, ht⟩ := tail [] (by simp)
    exact ⟨[], tl, hc, by simp, by simp, by simp, by simp, Or.inr ⟨by simp, by simpa using ht⟩⟩
  | true =>
    obtain ⟨pre, hd, hk, ht⟩ := drop_calls jd env l h0
    rcases ho : (jd.dropDatabaseTables env l).outcome h0 with _ | v
    · have hS : jd.setupDatabaseTables env l true h0 =
          jd.setupDatabaseTables env l false (h0 ++ pre) := by
        rw [setup_true, hd, ho]
      obtain ⟨tl, hc, hcase⟩ := tail pre hS
      exact ⟨pre, tl, hc, by simp, fun _ => by rw [← ho]; exact hd, hk, ht, Or.inr ⟨by simp, hcase⟩⟩
    · have hS : jd.setupDatabaseTables env l true h0 = (.panic v, h0 ++ pre) := by
        rw [setup_true, hd, ho]
      obtain ⟨hso, hsc⟩ := run_calls _ _ _ _ hS
      exact ⟨pre, [], by simpa using hsc, by simp, fun _ => by rw [← ho]; exact hd, hk, ht,
        Or.inl ⟨rfl, rfl, v, rfl, hso⟩⟩


theorem not_mem_of_not_teardown (pre : List Event) (hk : ∀ e ∈ pre, e.isTeardownCall = true)
    (e : Event) (he : e.isTeardownCall = false) : e ∉ pre := by
  intro hmem
  rw [hk e hmem] at he
  exact Bool.noConfusion he

/-! ## Claims about `setup.go` -/

/-- C1: whenever `setupDatabaseTables` calls `MigrateFromTemplates`, the template
data it hands over has exactly the two entries `Prefix`, the table prefix of the
handle, and `Datasets`, the non-nil list of the `Index` values of the datasets
that `refreshDSList` returned in this run, in the same order. -/
theorem C1_template_data (jd : HandleT) (env : Env) (l : LockToken) (clearAll : Bool)
    (h0 : List Event) (m : Migrator) (dir : String) (td : List (String × TemplateValue))
    (res : Outcome (Option GoError))
    (hm : Event.MigrateFromTemplates m dir td res ∈
      (jd.setupDatabaseTables env l clearAll).calls h0) :
    ∃ ds : List dataSetT,
      Event.refreshDSList l (.ret ds) ∈ (jd.setupDatabaseTables env l clearAll).calls h0 ∧
      (∀ t r, Event.refreshDSList t r ∈ (jd.setupDatabaseTables env l clearAll).calls h0 →
        r = .ret ds) ∧
      td.length = 2 ∧
      td = [("Prefix", .str jd.tablePrefix),
            ("Datasets", .strSlice (some (ds.map (fun d => d.Index))))] ∧
      (ds.map (fun d => d.Index)).length = ds.length := by
  obtain ⟨pre, tl, hc, -, -, hk, -, hcase⟩ := setup_calls jd env l clearAll h0
  have hn := not_mem_of_not_teardown pre hk
  rw [hc] at hm ⊢
  have hm1 : Event.MigrateFromTemplates m dir td res ∈ tl := by
    rcases List.mem_append.1 hm with h | h
    · exact absurd h (hn _ rfl)
    · exact h
  have hr1 : ∀ t r, Event.refreshDSList t r ∈ pre ++ tl → Event.refreshDSList t r ∈ tl := by
    intro t r h
    rcases List.mem_append.1 h with h | h
    · exact absurd h (hn _ rfl)
    · exact h
  rcases hcase with ⟨-, rfl, -⟩ | ⟨-, ⟨v, -, rfl, -⟩ | ⟨ds, s, e, -, rfl, -⟩ |
    ⟨ds, s, v, c, -, rfl, -⟩ | ⟨ds, s, e, c, -, rfl, -⟩ | ⟨ds, s, c, -, rfl, -⟩⟩
  · simp at hm1
  · simp at hm1
  · simp at hm1
  all_goals
    refine ⟨ds, by simp, ?_, ?_⟩
    · intro t r h
      have := hr1 t r h
      simp at this
      exact this.2
    · simp only [List.mem_cons, Event.MigrateFromTemplates.injEq, List.mem_singleton,
        reduceCtorEq, false_or, or_false, List.not_mem_nil] at hm1
      obtain ⟨-, -, rfl, -⟩ := hm1
      simp [templateData, datasetIndices_eq]

theorem C1_template_data_witness :
    ∃ ds : List dataSetT,
      Event.refreshDSList ⟨7⟩ (.ret ds) ∈
        (gwHandle.setupDatabaseTables (calmEnv twoDatasets) ⟨7⟩ false).calls [] ∧
      (∀ t r, Event.refreshDSList t r ∈
        (gwHandle.setupDatabaseTables (calmEnv twoDatasets) ⟨7⟩ false).calls [] → r = .ret ds) ∧
      [("Prefix", TemplateValue.str "gw"),
        ("Datasets", .strSlice (some ["1", "1_1"]))].length = 2 ∧
      [("Prefix", TemplateValue.str "gw"), ("Datasets", .strSlice (some ["1", "1_1"]))] =
        [("Prefix", .str gwHandle.tablePrefix),
          ("Datasets", .strSlice (some (ds.map (fun d => d.Index))))] ∧
      (ds.map (fun d => d.Index)).length = ds.length :=
  C1_template_data gwHandle (calmEnv twoDatasets) ⟨7⟩ false []
    ⟨⟨"postgres", "host=localhost"⟩, "gw_schema_migrations", true⟩ "jobsdb"
    [("Prefix", .str "gw"), ("Datasets", .strSlice (some ["1", "1_1"]))] (.ret none) (by decide)

/-- C2: failure to migrate is fatal.  If `sql.Open` returned an error,
`setupDatabaseTables` panics with an error that wraps it; if
`MigrateFromTemplates` returned an error, it panics with an error that wraps it
and whose message names the table prefix; if `sql.Open` and
`MigrateFromTemplates` both returned nil, it returns normally. -/
theorem C2_migration_failure_fatal (jd : HandleT) (env : Env) (l : LockToken)
    (clearAll : Bool) (h0 : List Event) :
    (∀ d s e, Event.sqlOpen d s (some e) ∈ (jd.setupDatabaseTables env l clearAll).calls h0 →
      (jd.setupDatabaseTables env l clearAll).outcome h0 =
        .panic (.wrapped ("Error DB for migrate open: " ++ e.Error) e)) ∧
    (∀ m dir td e, Event.MigrateFromTemplates m dir td (.ret (some e)) ∈
        (jd.setupDatabaseTables env l clearAll).calls h0 →
      (jd.setupDatabaseTables env l clearAll).outcome h0 =
        .panic (.wrapped
          ("Error while migrating '" ++ jd.tablePrefix ++ "' jobsdb tables: " ++ e.Error) e)) ∧
    (∀ d s m dir td,
      Event.sqlOpen d s none ∈ (jd.setupDatabaseTables env l clearAll).calls h0 →
      Event.MigrateFromTemplates m dir td (.ret none) ∈
        (jd.setupDatabaseTables env l clearAll).calls h0 →
      (jd.setupDatabaseTables env l clearAll).outcome h0 = .ret ()) := by
  obtain ⟨pre, tl, hc, -, -, hk, -, hcase⟩ := setup_calls jd env l clearAll h0
  have hn := not_mem_of_not_teardown pre hk
  rw [hc]
  have hopen : ∀ d s e, Event.sqlOpen d s e ∈ pre ++ tl → Event.sqlOpen d s e ∈ tl := by
    intro d s e h
    rcases List.mem_append.1 h with h | h
    · exact absurd h (hn _ rfl)
    · exact h
  have hmig : ∀ m dir td r, Event.MigrateFromTemplates m dir td r ∈ pre ++ tl →
      Event.MigrateFromTemplates m dir td r ∈ tl := by
    intro m dir td r h
    rcases List.mem_append.1 h with h | h
    · exact absurd h (hn _ rfl)
    · exact h
  refine ⟨fun d s e h => ?_, fun m dir td e h => ?_, fun d s m dir td _ h => ?_⟩
  · have h1 := hopen d s (some e) h
    rcases hcase with ⟨-, rfl, -⟩ | ⟨-, ⟨v, -, rfl, -⟩ | ⟨ds, s1, e1, -, rfl, ho⟩ |
      ⟨ds, s1, v, c, -, rfl, -⟩ | ⟨ds, s1, e1, c, -, rfl, -⟩ | ⟨ds, s1, c, -, rfl, -⟩⟩ <;>
    simp at h1
    obtain ⟨-, -, rfl⟩ := h1
    exact ho
  · have h1 := hmig m dir td _ h
    rcases hcase with ⟨-, rfl, -⟩ | ⟨-, ⟨v, -, rfl, -⟩ | ⟨ds, s1, e1, -, rfl, -⟩ |
      ⟨ds, s1, v, c, -, rfl, -⟩ | ⟨ds, s1, e1, c, -, rfl, ho⟩ | ⟨ds, s1, c, -, rfl, -⟩⟩ <;>
    simp at h1
    obtain ⟨-, -, -, rfl⟩ := h1
    rw [ho, Errorf_w, String.append_assoc]
  · have h1 := hmig m dir td _ h
    rcases hcase with ⟨-, rfl, -⟩ | ⟨-, ⟨v, -, rfl, -⟩ | ⟨ds, s1, e1, -, rfl, -⟩ |
      ⟨ds, s1, v, c, -, rfl, -⟩ | ⟨ds, s1, e1, c, -, rfl, -⟩ | ⟨ds, s1, c, -, rfl, ho⟩⟩ <;>
    simp at h1
    exact ho

theorem C2_migration_failure_fatal_witness :
    (gwHandle.setupDatabaseTables noDriverEnv ⟨7⟩ true).outcome [] =
        .panic (.wrapped "Error DB for migrate open: sql: unknown driver"
          (.plain "sql: unknown driver")) ∧
    (gwHandle.setupDatabaseTables badMigrationEnv ⟨7⟩ true).outcome [] =
        .panic (.wrapped "Error while migrating 'gw' jobsdb tables: dirty database"
          (.plain "dirty database")) ∧
    (gwHandle.setupDatabaseTables (calmEnv twoDatasets) ⟨7⟩ true).outcome [] = .ret () :=
  ⟨(C2_migration_failure_fatal gwHandle noDriverEnv ⟨7⟩ true []).1 "postgres" "host=localhost"
      (.plain "sql: unknown driver") (by decide),
    (C2_migration_failure_fatal gwHandle badMigrationEnv ⟨7⟩ true []).2.1
      ⟨⟨"postgres", "host=localhost"⟩, "gw_schema_migrations", true⟩ "jobsdb"
      [("Prefix", .str "gw"), ("Datasets", .strSlice (some []))] (.plain "dirty database")
      (by decide),
    (C2_migration_failure_fatal gwHandle (calmEnv twoDatasets) ⟨7⟩ true []).2.2
      "postgres" "host=localhost"
      ⟨⟨"postgres", "host=localhost"⟩, "gw_schema_migrations", true⟩ "jobsdb"
      [("Prefix", .str "gw"), ("Datasets", .strSlice (some []))] (by decide) (by decide)⟩

/-- C3 fails as stated: in a world where the key
`SQLMigrator.forceSetLowerVersion` is not configured, the migrator handed to
`MigrateFromTemplates` has `ShouldForceSetLowerVersion = true`. -/
theorem C3_counterexample :
    (calmEnv []).configBool "SQLMigrator.forceSetLowerVersion" = none ∧
    Event.MigrateFromTemplates
        { Handle := ⟨"postgres", "host=localhost"⟩
          MigrationsTable := "gw_schema_migrations"
          ShouldForceSetLowerVersion := true } "jobsdb"
        [("Prefix", .str "gw"), ("Datasets", .strSlice (some []))] (.ret none) ∈
      (gwHandle.setupDatabaseTables (calmEnv []) ⟨7⟩ false).calls [] := by
  decide

/-- C3 (amended): the migrator that `setupDatabaseTables` hands to
`MigrateFromTemplates` has `ShouldForceSetLowerVersion` equal to the value
configured for `SQLMigrator.forceSetLowerVersion`, and `true` when the key is not
configured; so the flag is `false` exactly when the operator has set the key to
`false`. -/
theorem C3_force_flag (jd : HandleT) (env : Env) (l : LockToken) (clearAll : Bool)
    (h0 : List Event) (m : Migrator) (dir : String) (td : List (String × TemplateValue))
    (res : Outcome (Option GoError))
    (hm : Event.MigrateFromTemplates m dir td res ∈
      (jd.setupDatabaseTables env l clearAll).calls h0) :
    (∀ b, env.configBool "SQLMigrator.forceSetLowerVersion" = some b →
      m.ShouldForceSetLowerVersion = b) ∧
    (env.configBool "SQLMigrator.forceSetLowerVersion" = none →
      m.ShouldForceSetLowerVersion = true) ∧
    (m.ShouldForceSetLowerVersion = false ↔
      env.configBool "SQLMigrator.forceSetLowerVersion" = some false) := by
  obtain ⟨pre, tl, hc, -, -, hk, -, hcase⟩ := setup_calls jd env l clearAll h0
  have hn := not_mem_of_not_teardown pre hk
  rw [hc] at hm
  have hm1 : Event.MigrateFromTemplates m dir td res ∈ tl := by
    rcases List.mem_append.1 hm with h | h
    · exact absurd h (hn _ rfl)
    · exact h
  have key : m.ShouldForceSetLowerVersion =
      GetBool env.configBool "SQLMigrator.forceSetLowerVersion" true := by
    rcases hcase with ⟨-, rfl, -⟩ | ⟨-, ⟨v, -, rfl, -⟩ | ⟨ds, s, e, -, rfl, -⟩ |
      ⟨ds, s, v, c, -, rfl, -⟩ | ⟨ds, s, e, c, -, rfl, -⟩ | ⟨ds, s, c, -, rfl, -⟩⟩ <;>
    simp at hm1 <;>
    · obtain ⟨rfl, -⟩ := hm1
      rfl
  rw [key, GetBool]
  cases env.configBool "SQLMigrator.forceSetLowerVersion" <;> simp

theorem C3_force_flag_witness :
    (∀ b, cautiousEnv.configBool "SQLMigrator.forceSetLowerVersion" = some b → false = b) ∧
    (cautiousEnv.configBool "SQLMigrator.forceSetLowerVersion" = none → false = true) ∧
    (false = false ↔ cautiousEnv.configBool "SQLMigrator.forceSetLowerVersion" = some false) :=
  C3_force_flag gwHandle cautiousEnv ⟨7⟩ false []
    ⟨⟨"postgres", "host=localhost"⟩, "gw_schema_migrations", false⟩ "jobsdb"
    [("Prefix", .str "gw"), ("Datasets", .strSlice (some []))] (.ret none) (by decide)

/-- C4: with `clearAll` set, the calls of `setupDatabaseTables` are the calls of
`dropDatabaseTables` followed by calls that drop nothing; nothing follows when the
drop did not return; `refreshDSList` is the first call after the drop, it is made
only when the drop returned, and it is answered in the world as it is after all
calls of the drop; the `Datasets` list handed to `MigrateFromTemplates` is built
from that answer.  With `clearAll` unset, `setupDatabaseTables` makes none of the
calls of `dropDatabaseTables`. -/
theorem C4_clear_all (jd : HandleT) (env : Env) (l : LockToken) (h0 : List Event) :
    (∃ rest,
      (jd.setupDatabaseTables env l true).calls h0 =
        (jd.dropDatabaseTables env l).calls h0 ++ rest ∧
      (jd.dropDatabaseTables env l).calls h0 ≠ [] ∧
      (∀ e ∈ rest, e.isTeardownCall = false) ∧
      ((jd.dropDatabaseTables env l).outcome h0 ≠ .ret () → rest = []) ∧
      (∀ t r, Event.refreshDSList t r ∈ (jd.setupDatabaseTables env l true).calls h0 →
        (jd.dropDatabaseTables env l).outcome h0 = .ret () ∧
        r = env.refreshDSList (h0 ++ (jd.dropDatabaseTables env l).calls h0) l ∧
        ∃ rest1, rest = Event.refreshDSList t r :: rest1) ∧
      (∀ m dir td res, Event.MigrateFromTemplates m dir td res ∈
          (jd.setupDatabaseTables env l true).calls h0 →
        ∃ ds, env.refreshDSList (h0 ++ (jd.dropDatabaseTables env l).calls h0) l = .ret ds ∧
          td = [("Prefix", .str jd.tablePrefix),
                ("Datasets", .strSlice (some (ds.map (fun d => d.Index))))])) ∧
    (∀ e ∈ (jd.setupDatabaseTables env l false).calls h0, e.isTeardownCall = false) := by
  constructor
  · obtain ⟨pre, tl, hc, -, hd, hk, -, hcase⟩ := setup_calls jd env l true h0
    have hn := not_mem_of_not_teardown pre hk
    obtain ⟨-, hdc⟩ := run_calls _ _ _ _ (hd rfl)
    have hne : pre ≠ [] := by
      rcases drop_run jd env l h0 with ⟨e1, v, h⟩ | ⟨e1, v, h⟩ | ⟨e1, e2, v, h⟩ |
        ⟨e1, e2, v, h⟩ | ⟨e1, e2, v, h⟩ | ⟨e1, e2, e3, v, h⟩ | ⟨e1, e2, e3, h⟩ <;>
      · rw [← hdc, Act.calls, h]
        simp
    rw [hc, hdc]
    have hr1 : ∀ t r, Event.refreshDSList t r ∈ pre ++ tl → Event.refreshDSList t r ∈ tl := by
      intro t r h
      rcases List.mem_append.1 h with h | h
      · exact absurd h (hn _ rfl)
      · exact h
    have hmig : ∀ m dir td r, Event.MigrateFromTemplates m dir td r ∈ pre ++ tl →
        Event.MigrateFromTemplates m dir td r ∈ tl := by
      intro m dir td r h
      rcases List.mem_append.1 h with h | h
      · exact absurd h (hn _ rfl)
      · exact h
    refine ⟨tl, rfl, hne, ?_, ?_, ?_, ?_⟩
    · rcases hcase with ⟨-, rfl, -⟩ | ⟨-, ⟨v, -, rfl, -⟩ | ⟨ds, s, e, -, rfl, -⟩ |
        ⟨ds, s, v, c, -, rfl, -⟩ | ⟨ds, s, e, c, -, rfl, -⟩ | ⟨ds, s, c, -, rfl, -⟩⟩ <;>
      simp [Event.isTeardownCall]
    · intro hpanic
      rcases hcase with ⟨-, rfl, -⟩ | ⟨hret, -⟩
      · rfl
      · exact absurd (hret rfl) hpanic
    · intro t r h
      have h1 := hr1 t r h
      rcases hcase with ⟨-, rfl, -⟩ | ⟨hret, ⟨v, hr, rfl, -⟩ | ⟨ds, s, e, hr, rfl, -⟩ |
        ⟨ds, s, v, c, hr, rfl, -⟩ | ⟨ds, s, e, c, hr, rfl, -⟩ | ⟨ds, s, c, hr, rfl, -⟩⟩ <;>
      simp at h1 <;>
      · obtain ⟨rfl, rfl⟩ := h1
        exact ⟨hret rfl, hr.symm, _, rfl⟩
    · intro m dir td res h
      have h1 := hmig m dir td res h
      rcases hcase with ⟨-, rfl, -⟩ | ⟨-, ⟨v, hr, rfl, -⟩ | ⟨ds, s, e, hr, rfl, -⟩ |
        ⟨ds, s, v, c, hr, rfl, -⟩ | ⟨ds, s, e, c, hr, rfl, -⟩ | ⟨ds, s, c, hr, rfl, -⟩⟩ <;>
      simp at h1 <;>
      · obtain ⟨-, -, rfl, -⟩ := h1
        exact ⟨ds, hr, by simp [templateData, datasetIndices_eq]⟩
  · obtain ⟨pre, tl, hc, hnil, -, -, -, hcase⟩ := setup_calls jd env l false h0
    rw [hc, hnil rfl]
    rcases hcase with ⟨h, -⟩ | ⟨-, ⟨v, -, rfl, -⟩ | ⟨ds, s, e, -, rfl, -⟩ |
      ⟨ds, s, v, c, -, rfl, -⟩ | ⟨ds, s, e, c, -, rfl, -⟩ | ⟨ds, s, c, -, rfl, -⟩⟩
    · exact absurd h (by decide)
    all_goals simp [Event.isTeardownCall]

theorem C4_clear_all_witness :
    (Event.MigrateFromTemplates ⟨⟨"postgres", "host=localhost"⟩, "gw_schema_migrations", true⟩
        "jobsdb" [("Prefix", .str "gw"), ("Datasets", .strSlice (some []))] (.ret none) ∈
      (gwHandle.setupDatabaseTables (calmEnv twoDatasets) ⟨7⟩ true).calls []) ∧
    (Event.MigrateFromTemplates ⟨⟨"postgres", "host=localhost"⟩, "gw_schema_migrations", true⟩
        "jobsdb" [("Prefix", .str "gw"), ("Datasets", .strSlice (some ["1", "1_1"]))]
        (.ret none) ∈
      (gwHandle.setupDatabaseTables (calmEnv twoDatasets) ⟨7⟩ false).calls []) ∧
    (∀ e ∈ (gwHandle.setupDatabaseTables (calmEnv twoDatasets) ⟨7⟩ false).calls [],
      e.isTeardownCall = false) :=
  ⟨by decide, by decide, (C4_clear_all gwHandle (calmEnv twoDatasets) ⟨7⟩ []).2⟩

/-- C5: `setupDatabaseTables` and `dropDatabaseTables` take a lock token as an
argument, and every call of `refreshDSList` and of `dropAllDS` they make passes
exactly that token. -/
theorem C5_lock_token (jd : HandleT) (env : Env) (l : LockToken) (clearAll : Bool)
    (h0 : List Event) :
    (∀ t r, Event.refreshDSList t r ∈ (jd.setupDatabaseTables env l clearAll).calls h0 →
      t = l) ∧
    (∀ t r, Event.dropAllDS t r ∈ (jd.setupDatabaseTables env l clearAll).calls h0 → t = l) ∧
    (∀ t r, Event.dropAllDS t r ∈ (jd.dropDatabaseTables env l).calls h0 → t = l) ∧
    (∀ t r, Event.refreshDSList t r ∉ (jd.dropDatabaseTables env l).calls h0) := by
  obtain ⟨pre, tl, hc, -, -, hk, ht, hcase⟩ := setup_calls jd env l clearAll h0
  have hn := not_mem_of_not_teardown pre hk
  obtain ⟨pre1, hd1, hk1, ht1⟩ := drop_calls jd env l h0
  obtain ⟨-, hdc⟩ := run_calls _ _ _ _ hd1
  rw [hc, hdc]
  refine ⟨fun t r h => ?_, fun t r h => ?_, ht1, fun t r h => ?_⟩
  · rcases List.mem_append.1 h with h | h
    · exact absurd h (hn _ rfl)
    · rcases hcase with ⟨-, rfl, -⟩ | ⟨-, ⟨v, -, rfl, -⟩ | ⟨ds, s, e, -, rfl, -⟩ |
        ⟨ds, s, v, c, -, rfl, -⟩ | ⟨ds, s, e, c, -, rfl, -⟩ | ⟨ds, s, c, -, rfl, -⟩⟩ <;>
      simp at h <;> exact h.1
  · rcases List.mem_append.1 h with h | h
    · exact ht t r h
    · rcases hcase with ⟨-, rfl, -⟩ | ⟨-, ⟨v, -, rfl, -⟩ | ⟨ds, s, e, -, rfl, -⟩ |
        ⟨ds, s, v, c, -, rfl, -⟩ | ⟨ds, s, e, c, -, rfl, -⟩ | ⟨ds, s, c, -, rfl, -⟩⟩ <;>
      simp at h
  · exact not_mem_of_not_teardown pre1 hk1 (Event.refreshDSList t r) rfl h

theorem C5_lock_token_witness :
    (⟨7⟩ : LockToken) = ⟨7⟩ ∧ (⟨7⟩ : LockToken) = ⟨7⟩ ∧ (⟨7⟩ : LockToken) = ⟨7⟩ :=
  ⟨(C5_lock_token gwHandle (calmEnv twoDatasets) ⟨7⟩ true []).1 ⟨7⟩ (.ret []) (by decide),
    (C5_lock_token gwHandle (calmEnv twoDatasets) ⟨7⟩ true []).2.1 ⟨7⟩ (.ret none) (by decide),
    (C5_lock_token gwHandle (calmEnv twoDatasets) ⟨7⟩ true []).2.2.1 ⟨7⟩ (.ret none)
      (by decide)⟩

theorem string_append_right_cancel (p q s : String) (h : p ++ s = q ++ s) : p = q := by
  have h1 : (p ++ s).data = (q ++ s).data := by rw [h]
  rw [String.data_append, String.data_append] at h1
  exact String.ext (List.append_cancel_right h1)

/-- C6: `SchemaMigrationTable` returns the table prefix followed by
`_schema_migrations`, and handles with different prefixes get different
schema-migrations tables. -/
theorem C6_schema_migration_table (jd jd1 : HandleT) :
    jd.SchemaMigrationTable = jd.tablePrefix ++ "_schema_migrations" ∧
    (jd.tablePrefix ≠ jd1.tablePrefix → jd.SchemaMigrationTable ≠ jd1.SchemaMigrationTable) :=
  ⟨rfl, fun hne heq => hne (string_append_right_cancel _ _ _ heq)⟩

theorem C6_schema_migration_table_witness :
    (⟨"gw"⟩ : HandleT).SchemaMigrationTable ≠ (⟨"rt"⟩ : HandleT).SchemaMigrationTable :=
  (C6_schema_migration_table ⟨"gw"⟩ ⟨"rt"⟩).2 (by decide)

/-- C7: `dropDatabaseTables` logs, executes
`DROP TABLE IF EXISTS <prefix>_schema_migrations` and passes its error to
`assertError`, calls `dropAllDS` and passes its error to `assertError`, calls
`dropJournal`, calls `dropAllBackupDS` and passes its error to `assertError`, in
this order.  Every run is this sequence cut after the first call that panics; it
returns normally exactly when all the calls were made and returned. -/
theorem C7_drop_order (jd : HandleT) (env : Env) (l : LockToken) (h0 : List Event) :
    (∃ e1 v, jd.dropDatabaseTables env l h0 = (.panic v, h0 ++
        [.Infof ("[JobsDB:" ++ jd.tablePrefix ++ "] Dropping all database tables"),
          .Exec ("DROP TABLE IF EXISTS " ++ (jd.tablePrefix ++ "_schema_migrations")) e1,
          .assertError e1 (.panic v)])) ∨
    (∃ e1 v, jd.dropDatabaseTables env l h0 = (.panic v, h0 ++
        [.Infof ("[JobsDB:" ++ jd.tablePrefix ++ "] Dropping all database tables"),
          .Exec ("DROP TABLE IF EXISTS " ++ (jd.tablePrefix ++ "_schema_migrations")) e1,
          .assertError e1 (.ret ()), .dropAllDS l (.panic v)])) ∨
    (∃ e1 e2 v, jd.dropDatabaseTables env l h0 = (.panic v, h0 ++
        [.Infof ("[JobsDB:" ++ jd.tablePrefix ++ "] Dropping all database tables"),
          .Exec ("DROP TABLE IF EXISTS " ++ (jd.tablePrefix ++ "_schema_migrations")) e1,
          .assertError e1 (.ret ()), .dropAllDS l (.ret e2), .assertError e2 (.panic v)])) ∨
    (∃ e1 e2 v, jd.dropDatabaseTables env l h0 = (.panic v, h0 ++
        [.Infof ("[JobsDB:" ++ jd.tablePrefix ++ "] Dropping all database tables"),
          .Exec ("DROP TABLE IF EXISTS " ++ (jd.tablePrefix ++ "_schema_migrations")) e1,
          .assertError e1 (.ret ()), .dropAllDS l (.ret e2), .assertError e2 (.ret ()),
          .dropJournal (.panic v)])) ∨
    (∃ e1 e2 v, jd.dropDatabaseTables env l h0 = (.panic v, h0 ++
        [.Infof ("[JobsDB:" ++ jd.tablePrefix ++ "] Dropping all database tables"),
          .Exec ("DROP TABLE IF EXISTS " ++ (jd.tablePrefix ++ "_schema_migrations")) e1,
          .assertError e1 (.ret ()), .dropAllDS l (.ret e2), .assertError e2 (.ret ()),
          .dropJournal (.ret ()), .dropAllBackupDS (.panic v)])) ∨
    (∃ e1 e2 e3 v, jd.dropDatabaseTables env l h0 = (.panic v, h0 ++
        [.Infof ("[JobsDB:" ++ jd.tablePrefix ++ "] Dropping all database tables"),
          .Exec ("DROP TABLE IF EXISTS " ++ (jd.tablePrefix ++ "_schema_migrations")) e1,
          .assertError e1 (.ret ()), .dropAllDS l (.ret e2), .assertError e2 (.ret ()),
          .dropJournal (.ret ()), .dropAllBackupDS (.ret e3), .assertError e3 (.panic v)])) ∨
    (∃ e1 e2 e3, jd.dropDatabaseTables env l h0 = (.ret (), h0 ++
        [.Infof ("[JobsDB:" ++ jd.tablePrefix ++ "] Dropping all database tables"),
          .Exec ("DROP TABLE IF EXISTS " ++ (jd.tablePrefix ++ "_schema_migrations")) e1,
          .assertError e1 (.ret ()), .dropAllDS l (.ret e2), .assertError e2 (.ret ()),
          .dropJournal (.ret ()), .dropAllBackupDS (.ret e3), .assertError e3 (.ret ())])) :=
  drop_run jd env l h0

end Jobsdb

namespace JobStore

/-! ## Status events and transitions -/

theorem hasJob_append (d : Dataset) (ev : StatusEvent) (id : Nat) :
    Dataset.hasJob { d with events := d.events ++ [ev] } id = d.hasJob id := rfl

theorem currentEvent_append (d : Dataset) (ev : StatusEvent) (id : Nat) :
    Dataset.currentEvent { d with events := d.events ++ [ev] } id =
      if ev.jobID = id then some ev else d.currentEvent id := by
  simp only [Dataset.currentEvent, List.filter_append]
  by_cases h : ev.jobID = id
  · simp [h, List.filter_cons]
  · simp [h, List.filter_cons]

/-- Appending a status event changes the most recent event of its own job, if the
job exists, and of no other job. -/
theorem currentEventIn_append (ds : List Dataset) (ev : StatusEvent) (id : Nat) :
    currentEventIn (appendEvent ds ev) id =
      if ds.any (fun d => d.hasJob ev.jobID) = true ∧ ev.jobID = id then some ev
      else currentEventIn ds id := by
  induction ds with
  | nil => simp [appendEvent, currentEventIn]
  | cons d ds ih =>
    by_cases hd : d.hasJob ev.jobID = true
    · simp only [appendEvent, hd, if_true, currentEventIn, hasJob_append, currentEvent_append,
        List.any_cons, Bool.true_or, true_and]
      by_cases hid : ev.jobID = id
      · subst hid
        simp [hd]
      · simp [hid]
    · simp only [appendEvent, hd, if_false, currentEventIn, ih, List.any_cons]
      simp only [Bool.not_eq_true] at hd
      by_cases hid : ev.jobID = id
      · subst hid
        simp [hd]
      · simp [hid]

theorem any_hasJob_append (ds : List Dataset) (ev : StatusEvent) (id : Nat) :
    (appendEvent ds ev).any (fun d => d.hasJob id) = ds.any (fun d => d.hasJob id) := by
  induction ds with
  | nil => rfl
  | cons d ds ih =>
    by_cases hd : d.hasJob ev.jobID = true
    · simp [appendEvent, hd, hasJob_append]
    · simp [appendEvent, hd, ih]

theorem currentEventIn_none (ds : List Dataset) (id : Nat)
    (h : ∀ d ∈ ds, d.hasJob id = false) : currentEventIn ds id = none := by
  induction ds with
  | nil => rfl
  | cons d ds ih =>
    have hd : d.hasJob id = false := h d (List.mem_cons_self _ _)
    simp only [currentEventIn, hd, Bool.false_eq_true, if_false]
    exact ih (fun x hx => h x (List.mem_cons_of_mem _ hx))

/-- The events written by `claim` keep a job executing once it is executing. -/
theorem claim_fold_keeps (picked : List Job) (ds : List Dataset) (w : Option String)
    (now id : Nat)
    (h : (currentEventIn ds id).map (fun ev => ev.state) = some JobState.executing) :
    (currentEventIn
      (picked.foldl (fun ds j => appendEvent ds (claimEvent ds w now j)) ds) id).map
        (fun ev => ev.state) = some JobState.executing := by
  induction picked generalizing ds with
  | nil => exact h
  | cons x xs ih =>
    rw [List.foldl_cons]
    apply ih
    rw [currentEventIn_append]
    split
    · rfl
    · exact h

theorem claim_fold_any (picked : List Job) (ds : List Dataset) (w : Option String)
    (now id : Nat) :
    (picked.foldl (fun ds j => appendEvent ds (claimEvent ds w now j)) ds).any
        (fun d => d.hasJob id) = ds.any (fun d => d.hasJob id) := by
  induction picked generalizing ds with
  | nil => rfl
  | cons x xs ih => rw [List.foldl_cons, ih, any_hasJob_append]

/-- Every job picked by `claim` that exists in some dataset is executing after the
claim. -/
theorem claim_fold_executing (picked : List Job) (ds : List Dataset) (w : Option String)
    (now : Nat) (j : Job) (hj : j ∈ picked)
    (hex : ds.any (fun d => d.hasJob j.id) = true) :
    (currentEventIn
      (picked.foldl (fun ds j => appendEvent ds (claimEvent ds w now j)) ds) j.id).map
        (fun ev => ev.state) = some JobState.executing := by
  induction picked generalizing ds with
  | nil => exact absurd hj (List.not_mem_nil _)
  | cons x xs ih =>
    rw [List.foldl_cons]
    rcases List.mem_cons.1 hj with rfl | hmem
    · apply claim_fold_keeps
      rw [currentEventIn_append]
      simp [claimEvent, hex]
    · exact ih _ hmem (by rw [any_hasJob_append]; exact hex)

theorem eligible_exists (s : Store) (f : Filter) (j : Job) (hj : j ∈ s.eligible f) :
    s.datasets.any (fun d => d.hasJob j.id) = true := by
  simp only [Store.eligible, List.mem_flatten, List.mem_map] at hj
  obtain ⟨l, ⟨d, hd, rfl⟩, hjl⟩ := hj
  rw [List.any_eq_true]
  refine ⟨d, hd, ?_⟩
  rw [Dataset.hasJob, List.any_eq_true]
  exact ⟨j, (List.mem_filter.1 hjl).1, by simp⟩

/-- C9: `updateStatus` enforces valid transitions.  For every job returned by a
claim (which makes it executing), `updateStatus(job, succeeded)` is accepted and
makes it succeeded, and a second `updateStatus(job, succeeded)` returns
`InvalidTransition`, an error that carries no store, so no status event is
appended.  `updateStatus` on a job that does not exist, and on a job whose
current state is not executing (in particular succeeded, aborted or another
terminal state), returns `InvalidTransition`. -/
theorem C9_update_status :
    (∀ (s : Store) (f : Filter) (limit : Nat) (w : Option String) (now id : Nat)
        (d1 d2 : Option String) (t1 t2 : Nat),
      id ∈ (s.claim f limit w now).1.map (fun p => p.1.id) →
      (s.claim f limit w now).2.currentState id = some .executing ∧
      ∃ s1, (s.claim f limit w now).2.updateStatus id .succeeded d1 t1 = .ok s1 ∧
        s1.currentState id = some .succeeded ∧
        s1.updateStatus id .succeeded d2 t2 = .error .InvalidTransition) ∧
    (∀ (s : Store) (id : Nat) (newState : JobState) (d : Option String) (t : Nat),
      (∀ ds ∈ s.datasets, ds.hasJob id = false) →
      s.updateStatus id newState d t = .error .InvalidTransition) ∧
    (∀ (s : Store) (id : Nat) (st newState : JobState) (d : Option String) (t : Nat),
      s.currentState id = some st → st ≠ .executing →
      s.updateStatus id newState d t = .error .InvalidTransition) := by
  refine ⟨?_, ?_, ?_⟩
  · intro s f limit w now id d1 d2 t1 t2 hid
    simp only [Store.claim, List.map_map, List.mem_map, Function.comp] at hid
    obtain ⟨j, hj, rfl⟩ := hid
    have hel : j ∈ s.eligible f := List.mem_of_mem_take hj
    have hex := eligible_exists s f j hel
    have hexec := claim_fold_executing ((s.eligible f).take limit) s.datasets w now j hj hex
    have hany := claim_fold_any ((s.eligible f).take limit) s.datasets w now j.id
    rw [hex] at hany
    refine ⟨hexec, ?_⟩
    simp only [Store.claim] at hexec hany ⊢
    generalize (List.foldl (fun ds j => appendEvent ds (claimEvent ds w now j)) s.datasets
      (List.take limit (s.eligible f))) = ds1 at hexec hany
    rcases hcur : currentEventIn ds1 j.id with _ | cur
    · simp [hcur] at hexec
    · have hst : cur.state = .executing := by simpa [hcur] using hexec
      refine ⟨⟨appendEvent ds1 ⟨j.id, .succeeded, t1, cur.attempt, d1, cur.worker⟩,
          s.nextJobID⟩,
        by simp [Store.updateStatus, hcur, hst, JobState.isCompletion], ?_, ?_⟩
      · simp [Store.currentState, currentEventIn_append, hany]
      · simp [Store.updateStatus, currentEventIn_append, hany]
  · intro s id newState d t hno
    simp [Store.updateStatus, currentEventIn_none s.datasets id hno]
  · intro s id st newState d t hcur hne
    simp only [Store.currentState] at hcur
    rcases h : currentEventIn s.datasets id with _ | cur
    · simp [h] at hcur
    · have hst : cur.state = st := by simpa [h] using hcur
      simp [Store.updateStatus, h, hst, hne]

theorem C9_update_status_witness :
    (threeWaiting.claim waitingJobs 2 (some "worker-1") 20).2.currentState 1 = some .executing ∧
    (∃ s1, (threeWaiting.claim waitingJobs 2 (some "worker-1") 20).2.updateStatus 1 .succeeded
        none 21 = .ok s1 ∧
      s1.currentState 1 = some .succeeded ∧
      s1.updateStatus 1 .succeeded none 22 = .error .InvalidTransition) ∧
    threeWaiting.updateStatus 9 .succeeded none 21 = .error .InvalidTransition ∧
    threeWaiting.updateStatus 3 .succeeded none 21 = .error .InvalidTransition :=
  ⟨(C9_update_status.1 threeWaiting waitingJobs 2 (some "worker-1") 20 1 none none 21 22
      (by decide)).1,
    (C9_update_status.1 threeWaiting waitingJobs 2 (some "worker-1") 20 1 none none 21 22
      (by decide)).2,
    C9_update_status.2.1 threeWaiting 9 .succeeded none 21 (by decide),
    C9_update_status.2.2 threeWaiting 3 .waiting .succeeded none 21 (by decide) (by decide)⟩

/-! ## The rotation scenario -/

theorem queryTake_end (s : Store) (f : Filter) (c : Option Cursor) (n : Nat)
    (h : s.queryNext f c = none) : s.queryTake f c n = ([], c) := by
  cases n with
  | zero => rfl
  | succ n => simp [Store.queryTake, h]

theorem queryTake_step (s : Store) (f : Filter) (c : Option Cursor) (n : Nat) (j : Job)
    (c1 : Cursor) (h : s.queryNext f c = some (j, c1)) :
    s.queryTake f c (n + 1) =
      (j :: (s.queryTake f (some c1) n).1, (s.queryTake f (some c1) n).2) := by
  simp [Store.queryTake, h]

theorem scenario_before (a1 a2 a3 a4 a5 : JobInput) :
    freshStore.enqueueAll [a1, a2, a3, a4, a5] =
      .ok ([1, 2, 3, 4, 5], beforeRotation a1 a2 a3 a4 a5) := rfl

theorem scenario_after (a1 a2 a3 a4 a5 b1 b2 b3 : JobInput) :
    (beforeRotation a1 a2 a3 a4 a5).rotate.enqueueAll [b1, b2, b3] =
      .ok ([6, 7, 8], afterRotation a1 a2 a3 a4 a5 b1 b2 b3) := rfl

/-- A scan of the store before the rotation that is given enough steps reads the
five jobs and stops behind job 5 of dataset `A`. -/
theorem before_exhausted (a1 a2 a3 a4 a5 : JobInput) (n : Nat) :
    (beforeRotation a1 a2 a3 a4 a5).queryTake waitingJobs none (n + 5) =
      ([jobRow 1 a1, jobRow 2 a2, jobRow 3 a3, jobRow 4 a4, jobRow 5 a5], some ⟨1, 5⟩) := by
  have e5 := queryTake_end (beforeRotation a1 a2 a3 a4 a5) waitingJobs (some ⟨1, 5⟩) n rfl
  have e4 := queryTake_step (beforeRotation a1 a2 a3 a4 a5) waitingJobs (some ⟨1, 4⟩) n
    (jobRow 5 a5) ⟨1, 5⟩ rfl
  have e3 := queryTake_step (beforeRotation a1 a2 a3 a4 a5) waitingJobs (some ⟨1, 3⟩) (n + 1)
    (jobRow 4 a4) ⟨1, 4⟩ rfl
  have e2 := queryTake_step (beforeRotation a1 a2 a3 a4 a5) waitingJobs (some ⟨1, 2⟩) (n + 2)
    (jobRow 3 a3) ⟨1, 3⟩ rfl
  have e1 := queryTake_step (beforeRotation a1 a2 a3 a4 a5) waitingJobs (some ⟨1, 1⟩) (n + 3)
    (jobRow 2 a2) ⟨1, 2⟩ rfl
  have e0 := queryTake_step (beforeRotation a1 a2 a3 a4 a5) waitingJobs none (n + 4)
    (jobRow 1 a1) ⟨1, 1⟩ rfl
  rw [e0, e1, e2, e3, e4, e5]

/-- A scan of the store after the rotation, resumed behind job `i` of dataset `A`
and given enough steps, reads the jobs `i + 1` to 8. -/
theorem after_drain (a1 a2 a3 a4 a5 b1 b2 b3 : JobInput) (n : Nat) :
    ((afterRotation a1 a2 a3 a4 a5 b1 b2 b3).queryTake waitingJobs none (n + 8)).1 =
      [jobRow 1 a1, jobRow 2 a2, jobRow 3 a3, jobRow 4 a4, jobRow 5 a5,
        jobRow 6 b1, jobRow 7 b2, jobRow 8 b3] ∧
    ((afterRotation a1 a2 a3 a4 a5 b1 b2 b3).queryTake waitingJobs (some ⟨1, 1⟩) (n + 7)).1 =
      [jobRow 2 a2, jobRow 3 a3, jobRow 4 a4, jobRow 5 a5,
        jobRow 6 b1, jobRow 7 b2, jobRow 8 b3] ∧
    ((afterRotation a1 a2 a3 a4 a5 b1 b2 b3).queryTake waitingJobs (some ⟨1, 2⟩) (n + 6)).1 =
      [jobRow 3 a3, jobRow 4 a4, jobRow 5 a5, jobRow 6 b1, jobRow 7 b2, jobRow 8 b3] ∧
    ((afterRotation a1 a2 a3 a4 a5 b1 b2 b3).queryTake waitingJobs (some ⟨1, 3⟩) (n + 5)).1 =
      [jobRow 4 a4, jobRow 5 a5, jobRow 6 b1, jobRow 7 b2, jobRow 8 b3] ∧
    ((afterRotation a1 a2 a3 a4 a5 b1 b2 b3).queryTake waitingJobs (some ⟨1, 4⟩) (n + 4)).1 =
      [jobRow 5 a5, jobRow 6 b1, jobRow 7 b2, jobRow 8 b3] ∧
    ((afterRotation a1 a2 a3 a4 a5 b1 b2 b3).queryTake waitingJobs (some ⟨1, 5⟩) (n + 3)).1 =
      [jobRow 6 b1, jobRow 7 b2, jobRow 8 b3] := by
  have e8 := queryTake_end (afterRotation a1 a2 a3 a4 a5 b1 b2 b3) waitingJobs
    (some ⟨2, 8⟩) n rfl
  have e7 := queryTake_step (afterRotation a1 a2 a3 a4 a5 b1 b2 b3) waitingJobs
    (some ⟨2, 7⟩) n (jobRow 8 b3) ⟨2, 8⟩ rfl
  have e6 := queryTake_step (afterRotation a1 a2 a3 a4 a5 b1 b2 b3) waitingJobs
    (some ⟨2, 6⟩) (n + 1) (jobRow 7 b2) ⟨2, 7⟩ rfl
  have e5 := queryTake_step (afterRotation a1 a2 a3 a4 a5 b1 b2 b3) waitingJobs
    (some ⟨1, 5⟩) (n + 2) (jobRow 6 b1) ⟨2, 6⟩ rfl
  have e4 := queryTake_step (afterRotation a1 a2 a3 a4 a5 b1 b2 b3) waitingJobs
    (some ⟨1, 4⟩) (n + 3) (jobRow 5 a5) ⟨1, 5⟩ rfl
  have e3 := queryTake_step (afterRotation a1 a2 a3 a4 a5 b1 b2 b3) waitingJobs
    (some ⟨1, 3⟩) (n + 4) (jobRow 4 a4) ⟨1, 4⟩ rfl
  have e2 := queryTake_step (afterRotation a1 a2 a3 a4 a5 b1 b2 b3) waitingJobs
    (some ⟨1, 2⟩) (n + 5) (jobRow 3 a3) ⟨1, 3⟩ rfl
  have e1 := queryTake_step (afterRotation a1 a2 a3 a4 a5 b1 b2 b3) waitingJobs
    (some ⟨1, 1⟩) (n + 6) (jobRow 2 a2) ⟨1, 2⟩ rfl
  have e0 := queryTake_step (afterRotation a1 a2 a3 a4 a5 b1 b2 b3) waitingJobs
    none (n + 7) (jobRow 1 a1) ⟨1, 1⟩ rfl
  refine ⟨?_, ?_, ?_, ?_, ?_, ?_⟩
  · rw [e0, e1, e2, e3, e4, e5, e6, e7, e8]
  · rw [e1, e2, e3, e4, e5, e6, e7, e8]
  · rw [e2, e3, e4, e5, e6, e7, e8]
  · rw [e3, e4, e5, e6, e7, e8]
  · rw [e4, e5, e6, e7, e8]
  · rw [e5, e6, e7, e8]

/-- C10: in the rotation scenario (jobs 1 to 5 enqueued into dataset `A`, a
rotation that adds dataset `B`, jobs 6 to 8 enqueued into `B`), a query cursor that
read any number `k` of jobs before the rotation and is resumed afterwards until
the scan ends yields, in both parts together, the ids 1, 2, 3, 4, 5, 6, 7, 8 in
this order. -/
theorem C10_cursor_survives_rotation (a1 a2 a3 a4 a5 b1 b2 b3 : JobInput) :
    ∃ s5 s8 : Store,
      freshStore.enqueueAll [a1, a2, a3, a4, a5] = .ok ([1, 2, 3, 4, 5], s5) ∧
      s5.rotate.enqueueAll [b1, b2, b3] = .ok ([6, 7, 8], s8) ∧
      s8.datasets.map (fun d => (d.index, d.jobs.map Job.id)) =
        [(1, [1, 2, 3, 4, 5]), (2, [6, 7, 8])] ∧
      ∀ k n : Nat,
        ((s5.queryTake waitingJobs none k).1 ++
          (s8.queryTake waitingJobs (s5.queryTake waitingJobs none k).2 (n + 8)).1).map Job.id =
          [1, 2, 3, 4, 5, 6, 7, 8] := by
  refine ⟨beforeRotation a1 a2 a3 a4 a5, afterRotation a1 a2 a3 a4 a5 b1 b2 b3,
    rfl, rfl, rfl, ?_⟩
  intro k n
  rcases k with _ | _ | _ | _ | _ | k
  · exact congrArg (List.map Job.id) (after_drain a1 a2 a3 a4 a5 b1 b2 b3 n).1
  · have h := (after_drain a1 a2 a3 a4 a5 b1 b2 b3 (n + 1)).2.1
    show ([jobRow 1 a1] ++ ((afterRotation a1 a2 a3 a4 a5 b1 b2 b3).queryTake waitingJobs
      (some ⟨1, 1⟩) (n + 1 + 7)).1).map Job.id = _
    rw [h]
    rfl
  · have h := (after_drain a1 a2 a3 a4 a5 b1 b2 b3 (n + 2)).2.2.1
    show ([jobRow 1 a1, jobRow 2 a2] ++ ((afterRotation a1 a2 a3 a4 a5 b1 b2 b3).queryTake
      waitingJobs (some ⟨1, 2⟩) (n + 2 + 6)).1).map Job.id = _
    rw [h]
    rfl
  · have h := (after_drain a1 a2 a3 a4 a5 b1 b2 b3 (n + 3)).2.2.2.1
    show ([jobRow 1 a1, jobRow 2 a2, jobRow 3 a3] ++
      ((afterRotation a1 a2 a3 a4 a5 b1 b2 b3).queryTake
        waitingJobs (some ⟨1, 3⟩) (n + 3 + 5)).1).map Job.id = _
    rw [h]
    rfl
  · have h := (after_drain a1 a2 a3 a4 a5 b1 b2 b3 (n + 4)).2.2.2.2.1
    show ([jobRow 1 a1, jobRow 2 a2, jobRow 3 a3, jobRow 4 a4] ++
      ((afterRotation a1 a2 a3 a4 a5 b1 b2 b3).queryTake
        waitingJobs (some ⟨1, 4⟩) (n + 4 + 4)).1).map Job.id = _
    rw [h]
    rfl
  · have h := (after_drain a1 a2 a3 a4 a5 b1 b2 b3 (n + 5)).2.2.2.2.2
    rw [before_exhausted]
    show ([jobRow 1 a1, jobRow 2 a2, jobRow 3 a3, jobRow 4 a4, jobRow 5 a5] ++
      ((afterRotation a1 a2 a3 a4 a5 b1 b2 b3).queryTake
        waitingJobs (some ⟨1, 5⟩) (n + 5 + 3)).1).map Job.id = _
    rw [h]
    rfl

end JobStore

namespace SchemaMigrator

/-! ## The Schema Migrator -/

theorem le_foldl_max (xs : List Nat) (a : Nat) :
    a ≤ xs.foldl max a ∧ ∀ x ∈ xs, x ≤ xs.foldl max a := by
  induction xs generalizing a with
  | nil => simp
  | cons y ys ih =>
    obtain ⟨h1, h2⟩ := ih (max a y)
    refine ⟨le_trans (le_max_left a y) h1, fun x hx => ?_⟩
    rcases List.mem_cons.1 hx with rfl | hx
    · exact le_trans (le_max_right a x) h1
    · exact h2 x hx

theorem version_le_target (steps : List MigrationStep) (s : MigrationStep) (h : s ∈ steps) :
    s.version ≤ targetVersion steps :=
  (le_foldl_max _ 0).2 s.version (List.mem_map_of_mem _ h)

/-- When every step is at or below the recorded version, the run applies nothing
and succeeds. -/
theorem applySteps_current (tableSet : String) (stepFails : Nat → Bool)
    (steps : List MigrationStep) (db : Database)
    (h : ∀ s ∈ steps, s.version ≤ db.recorded tableSet) :
    applySteps tableSet stepFails steps db = (db, .success) := by
  induction steps with
  | nil => rfl
  | cons s rest ih =>
    have hs := h s (List.mem_cons_self _ _)
    simp only [applySteps, hs, if_true]
    exact ih (fun x hx => h x (List.mem_cons_of_mem _ hx))

/-- The recorded version of the table-set never decreases during a run, and after
a successful run every step is at or below it. -/
theorem applySteps_recorded (tableSet : String) (stepFails : Nat → Bool)
    (steps : List MigrationStep) (db : Database) :
    db.recorded tableSet ≤ (applySteps tableSet stepFails steps db).1.recorded tableSet ∧
    ((applySteps tableSet stepFails steps db).2 = .success →
      ∀ s ∈ steps, s.version ≤ (applySteps tableSet stepFails steps db).1.recorded tableSet) := by
  induction steps generalizing db with
  | nil => simp [applySteps]
  | cons s rest ih =>
    unfold applySteps
    by_cases h1 : s.version ≤ db.recorded tableSet
    · simp only [h1, if_true]
      obtain ⟨i1, i2⟩ := ih db
      refine ⟨i1, fun hok x hx => ?_⟩
      rcases List.mem_cons.1 hx with rfl | hx
      · exact le_trans h1 i1
      · exact i2 hok x hx
    · simp only [h1, if_false]
      by_cases h2 : stepFails s.version = true
      · simp [h2]
      · simp only [h2, if_false]
        obtain ⟨i1, i2⟩ := ih (db.applyStep tableSet s)
        have hrec : (db.applyStep tableSet s).recorded tableSet = s.version := by
          simp [Database.applyStep]
        rw [hrec] at i1
        refine ⟨le_trans (le_of_lt (not_le.1 h1)) i1, fun hok x hx => ?_⟩
        rcases List.mem_cons.1 hx with rfl | hx
        · exact i1
        · exact i2 hok x hx

theorem applyStep_consistent (db : Database) (tableSet : String) (step : MigrationStep)
    (h : Consistent db) (hv : ¬ step.version ≤ db.recorded tableSet) :
    Consistent (db.applyStep tableSet step) := by
  obtain ⟨h1, h2⟩ := h
  constructor
  · refine List.Nodup.append h1 (List.nodup_singleton _) ?_
    simp only [List.disjoint_singleton]
    intro hmem
    exact hv (h2 _ hmem)
  · intro w hw
    simp only [Database.applyStep, List.mem_append, List.mem_singleton] at hw ⊢
    rcases hw with hw | rfl
    · by_cases ht : w.1 = tableSet
      · simp only [ht, if_true]
        have := h2 w hw
        rw [ht] at this
        omega
      · simp only [ht, if_false]
        exact h2 w hw
    · simp

theorem applySteps_consistent (tableSet : String) (stepFails : Nat → Bool)
    (steps : List MigrationStep) (db : Database) (h : Consistent db) :
    Consistent (applySteps tableSet stepFails steps db).1 := by
  induction steps generalizing db with
  | nil => exact h
  | cons s rest ih =>
    unfold applySteps
    by_cases h1 : s.version ≤ db.recorded tableSet
    · simp only [h1, if_true]
      exact ih db h
    · simp only [h1, if_false]
      by_cases h2 : stepFails s.version = true
      · simpa [h2] using h
      · simp only [h2, if_false]
        exact ih _ (applyStep_consistent db tableSet s h h1)

theorem runAll_consistent (runs : List Run) (db : Database) (h : Consistent db) :
    Consistent (runAll db runs) := by
  induction runs generalizing db with
  | nil => exact h
  | cons r rest ih =>
    simp only [runAll, List.foldl_cons]
    exact ih _ (applySteps_consistent _ _ _ db h)

/-- C11: the Schema Migrator is idempotent.  A run against a table-set whose
recorded version equals the target version leaves the database as it is (no
write) and returns success; a run that follows a successful run with the same
template set does the same; and in every history of runs from an empty database
no step of a table-set is written twice. -/
theorem C11_migrator_idempotent :
    (∀ (db : Database) (tableSet : String) (steps : List MigrationStep)
        (stepFails : Nat → Bool),
      db.recorded tableSet = targetVersion steps →
      migrate db tableSet steps stepFails = (db, .success)) ∧
    (∀ (db : Database) (tableSet : String) (steps : List MigrationStep)
        (fails1 fails2 : Nat → Bool),
      (migrate db tableSet steps fails1).2 = .success →
      migrate (migrate db tableSet steps fails1).1 tableSet steps fails2 =
        ((migrate db tableSet steps fails1).1, .success)) ∧
    (∀ runs : List Run, (runAll emptyDatabase runs).writes.Nodup) := by
  refine ⟨fun db tableSet steps stepFails h => ?_, fun db tableSet steps fails1 fails2 h => ?_,
    fun runs => ?_⟩
  · apply applySteps_current
    intro s hs
    rw [h]
    exact version_le_target steps s hs
  · apply applySteps_current
    exact (applySteps_recorded tableSet fails1 steps db).2 h
  · exact (runAll_consistent runs emptyDatabase ⟨List.nodup_nil, by simp [emptyDatabase]⟩).1

theorem C11_migrator_idempotent_witness :
    (migrate (migrate emptyDatabase "gw" threeSteps (fun _ => false)).1 "gw" threeSteps
        (fun _ => true)).1.writes = [("gw", 1), ("gw", 2), ("gw", 3)] ∧
    (migrate (migrate emptyDatabase "gw" threeSteps (fun _ => false)).1 "gw" threeSteps
        (fun _ => true)).2 = .success :=
  ⟨congrArg (fun r => r.1.writes)
      (C11_migrator_idempotent.1 (migrate emptyDatabase "gw" threeSteps (fun _ => false)).1
        "gw" threeSteps (fun _ => true) (by decide)),
    congrArg (fun r => r.2)
      (C11_migrator_idempotent.2.1 emptyDatabase "gw" threeSteps (fun _ => false)
        (fun _ => true) (by decide))⟩

end SchemaMigrator

namespace Journal

/-! ## Journal replay -/

theorem createDataset_index (datasets : List DatasetRow) (n : Nat) :
    (n ∈ datasets.map (fun d => d.index) ∧
      (createDataset datasets n).map (fun d => d.index) = datasets.map (fun d => d.index)) ∨
    (n ∉ datasets.map (fun d => d.index) ∧
      (createDataset datasets n).map (fun d => d.index) =
        datasets.map (fun d => d.index) ++ [n]) := by
  unfold createDataset
  by_cases h : datasets.any (fun d => d.index == n) = true
  · left
    refine ⟨?_, by simp [h]⟩
    obtain ⟨d, hd, hn⟩ := List.any_eq_true.1 h
    exact List.mem_map.2 ⟨d, hd, by simpa using hn⟩
  · right
    refine ⟨?_, by simp [h]⟩
    intro hmem
    obtain ⟨d, hd, hn⟩ := List.mem_map.1 hmem
    exact h (List.any_eq_true.2 ⟨d, hd, by simpa using hn⟩)

theorem sealDataset_index (datasets : List DatasetRow) (n : Nat) :
    (sealDataset datasets n).map (fun d => d.index) = datasets.map (fun d => d.index) := by
  unfold sealDataset
  rw [List.map_map]
  apply List.map_congr_left
  intro d _
  by_cases h : d.index = n <;> simp [h]

/-- Driving an entry to completion keeps the dataset indices distinct, loses no
dataset, and for a create entry makes its dataset exist. -/
theorem redo_index (s : System) (e : JournalEntry)
    (hd : (s.datasets.map (fun d => d.index)).Nodup) :
    ((s.redo e).datasets.map (fun d => d.index)).Nodup ∧
    (∀ m, m ∈ s.datasets.map (fun d => d.index) →
      m ∈ (s.redo e).datasets.map (fun d => d.index)) ∧
    (e.opType = .createDataset → e.operand ∈ (s.redo e).datasets.map (fun d => d.index)) ∧
    (s.redo e).journal = s.journal := by
  unfold System.redo
  rcases ho : e.opType with _ | _
  · rcases createDataset_index s.datasets e.operand with ⟨h1, h2⟩ | ⟨h1, h2⟩
    · simp only [h2]
      exact ⟨hd, fun m hm => hm, fun _ => h1, trivial⟩
    · simp only [h2]
      refine ⟨?_, fun m hm => List.mem_append_left _ hm, fun _ => by simp, trivial⟩
      exact List.Nodup.append hd (List.nodup_singleton _) (by simpa using h1)
  · simp only [sealDataset_index]
    exact ⟨hd, fun m hm => hm, fun h => by simp at h, trivial⟩

/-- The replay of a list of entries keeps the dataset indices distinct, loses no
dataset, makes the dataset of every create entry exist, and removes the replayed
entries from the journal. -/
theorem replay_fold (es : List JournalEntry) (s : System)
    (hd : (s.datasets.map (fun d => d.index)).Nodup) :
    ((es.foldl (fun acc e => (acc.redo e).commit e.entryID) s).datasets.map
      (fun d => d.index)).Nodup ∧
    (∀ m, m ∈ s.datasets.map (fun d => d.index) →
      m ∈ (es.foldl (fun acc e => (acc.redo e).commit e.entryID) s).datasets.map
        (fun d => d.index)) ∧
    (∀ e ∈ es, e.opType = .createDataset →
      e.operand ∈ (es.foldl (fun acc e => (acc.redo e).commit e.entryID) s).datasets.map
        (fun d => d.index)) ∧
    (es.foldl (fun acc e => (acc.redo e).commit e.entryID) s).journal =
      s.journal.filter (fun x => es.all (fun e => x.entryID != e.entryID)) := by
  induction es generalizing s with
  | nil => simp [hd]
  | cons e rest ih =>
    obtain ⟨r1, r2, r3, r4⟩ := redo_index s e hd
    have hd1 : (((s.redo e).commit e.entryID).datasets.map (fun d => d.index)).Nodup := r1
    obtain ⟨i1, i2, i3, i4⟩ := ih ((s.redo e).commit e.entryID) hd1
    rw [List.foldl_cons]
    refine ⟨i1, fun m hm => i2 m (r2 m hm), fun x hx hc => ?_, ?_⟩
    · rcases List.mem_cons.1 hx with rfl | hx
      · exact i2 _ (r3 hc)
      · exact i3 x hx hc
    · rw [i4]
      simp only [System.commit, r4, List.filter_filter, List.all_cons]
      apply List.filter_congr
      intro x _
      rw [Bool.and_comm]

theorem count_eq_one (s : System) (n : Nat)
    (hd : (s.datasets.map (fun d => d.index)).Nodup)
    (hn : n ∈ s.datasets.map (fun d => d.index)) : s.count n = 1 := by
  have h := List.count_eq_one_of_mem hd hn
  rw [List.count, List.countP_map, List.countP_eq_length_filter] at h
  rw [System.count, ← h]
  congr 1

/-- C12: crash recovery through the journal.  From any durable state with
distinct dataset indices, if the process stops after the entry
`begin("create dataset", idx=n)` is written and before it is committed (with or
without the dataset created), then after the replay on restart dataset `n` exists
exactly once, every dataset that existed before exists exactly once, and the
journal has no pending entry. -/
theorem C12_crash_recovery (s : System) (n now : Nat)
    (hd : (s.datasets.map (fun d => d.index)).Nodup) :
    ∀ c ∈ s.crashStates n now,
      c.replay.count n = 1 ∧
      c.replay.listPending = [] ∧
      (∀ d ∈ s.datasets, c.replay.count d.index = 1) := by
  have main : ∀ c : System, (c.datasets.map (fun d => d.index)).Nodup →
      (∀ m, m ∈ s.datasets.map (fun d => d.index) → m ∈ c.datasets.map (fun d => d.index)) →
      (∃ e ∈ c.journal, e.opType = .createDataset ∧ e.operand = n) →
      c.replay.count n = 1 ∧ c.replay.listPending = [] ∧
        (∀ d ∈ s.datasets, c.replay.count d.index = 1) := by
    intro c hc hkeep ⟨e, he, ho, hn⟩
    obtain ⟨f1, f2, f3, f4⟩ := replay_fold c.journal c hc
    refine ⟨count_eq_one _ _ f1 (hn ▸ f3 e he ho), ?_, fun d hdm => ?_⟩
    · simp only [System.listPending, System.replay]
      rw [f4, List.filter_eq_nil_iff]
      intro x hx
      simp only [List.all_eq_true, bne_iff_ne, ne_eq, not_forall, Classical.not_imp,
        Decidable.not_not]
      exact ⟨x, hx, rfl⟩
    · exact count_eq_one _ _ f1 (f2 _ (hkeep _ (List.mem_map_of_mem _ hdm)))
  intro c hc
  simp only [System.crashStates, System.begin, List.mem_cons, List.mem_singleton,
    List.not_mem_nil, or_false] at hc
  rcases hc with rfl | rfl
  · exact main _ hd (fun m hm => hm) ⟨_, List.mem_append_right _ (List.mem_singleton_self _),
      rfl, rfl⟩
  · rcases createDataset_index s.datasets n with ⟨h1, h2⟩ | ⟨h1, h2⟩
    · refine main _ (by simpa [h2] using hd) (fun m hm => by simpa [h2] using hm)
        ⟨_, List.mem_append_right _ (List.mem_singleton_self _), rfl, rfl⟩
    · refine main _ ?_ (fun m hm => ?_)
        ⟨_, List.mem_append_right _ (List.mem_singleton_self _), rfl, rfl⟩
      · simp only [h2]
        exact List.Nodup.append hd (List.nodup_singleton _) (by simpa using h1)
      · simp only [h2]
        exact List.mem_append_left _ hm

theorem C12_crash_recovery_witness :
    stoppedAfterBegin.replay.count 3 = 1 ∧
    stoppedAfterBegin.replay.listPending = [] ∧
    (∀ d ∈ twoDatasetSystem.datasets, stoppedAfterBegin.replay.count d.index = 1) :=
  C12_crash_recovery twoDatasetSystem 3 100 (by decide) stoppedAfterBegin (by decide)

end Journal

namespace RouterTypes

theorem setKey_mem (keys : List Int) (k id : Int) :
    id ∈ setKey keys k ↔ id ∈ keys ∨ id = k := by
  unfold setKey
  split
  · constructor
    · exact Or.inl
    · rintro (h | rfl)
      · exact h
      · assumption
  · simp

theorem setKey_nodup (keys : List Int) (k : Int) (h : keys.Nodup) : (setKey keys k).Nodup := by
  unfold setKey
  split
  · exact h
  · rename_i hk
    exact List.Nodup.append h (List.nodup_singleton k) (by simpa using hk)

/-- The keys collected by the loop of `JobIDs` are the start keys and the ids read
from the elements, without repetition. -/
theorem foldl_setKey {α : Type} (f : α → Int) (xs : List α) (keys : List Int)
    (h : keys.Nodup) :
    (xs.foldl (fun acc x => setKey acc (f x)) keys).Nodup ∧
    ∀ id, id ∈ xs.foldl (fun acc x => setKey acc (f x)) keys ↔
      id ∈ keys ∨ ∃ x ∈ xs, f x = id := by
  induction xs generalizing keys with
  | nil => simp [h]
  | cons x xs ih =>
    obtain ⟨h1, h2⟩ := ih (setKey keys (f x)) (setKey_nodup keys (f x) h)
    refine ⟨h1, fun id => ?_⟩
    rw [List.foldl_cons, h2, setKey_mem]
    constructor
    · rintro ((h | rfl) | ⟨y, hy, rfl⟩)
      · exact Or.inl h
      · exact Or.inr ⟨x, List.mem_cons_self _ _, rfl⟩
      · exact Or.inr ⟨y, List.mem_cons_of_mem _ hy, rfl⟩
    · rintro (h | ⟨y, hy, rfl⟩)
      · exact Or.inl (Or.inl h)
      · rcases List.mem_cons.1 hy with rfl | hy
        · exact Or.inl (Or.inr rfl)
        · exact Or.inr ⟨y, hy, rfl⟩

/-- C13: `JobIDs` returns the set of all job ids in the message.  For a
`DestinationJobT` and for a `TransformMessageT` the result is a non-nil map whose
keys are exactly the `JobID`s of the elements of the array, and the receiver is
unchanged; for the nil and for the empty array the map is empty and non-nil. -/
theorem C13_job_ids (dj : DestinationJobT) (tm : TransformMessageT) :
    (∃ keys, dj.JobIDs.1 = some keys ∧ keys.Nodup ∧
      ∀ id, id ∈ keys ↔ ∃ md ∈ rangeOf dj.JobMetadataArray, md.JobID = id) ∧
    dj.JobIDs.2 = dj ∧
    (∃ keys, tm.JobIDs.1 = some keys ∧ keys.Nodup ∧
      ∀ id, id ∈ keys ↔ ∃ rj ∈ rangeOf tm.Data, rj.JobMetadata.JobID = id) ∧
    tm.JobIDs.2 = tm ∧
    DestinationJobT.JobIDs { dj with JobMetadataArray := none } =
      (some [], { dj with JobMetadataArray := none }) ∧
    DestinationJobT.JobIDs { dj with JobMetadataArray := some [] } =
      (some [], { dj with JobMetadataArray := some [] }) ∧
    TransformMessageT.JobIDs { tm with Data := none } = (some [], { tm with Data := none }) ∧
    TransformMessageT.JobIDs { tm with Data := some [] } =
      (some [], { tm with Data := some [] }) := by
  obtain ⟨h1, h2⟩ := foldl_setKey (fun md : JobMetadataT => md.JobID)
    (rangeOf dj.JobMetadataArray) [] List.nodup_nil
  obtain ⟨h3, h4⟩ := foldl_setKey (fun rj : RouterJobT => rj.JobMetadata.JobID)
    (rangeOf tm.Data) [] List.nodup_nil
  refine ⟨⟨_, rfl, h1, fun id => ?_⟩, rfl, ⟨_, rfl, h3, fun id => ?_⟩, rfl, rfl, rfl, rfl, rfl⟩
  · simpa using h2 id
  · simpa using h4 id

end RouterTypes

namespace Bigquery

/-! ## Go maps and strings -/

theorem mapGet_mem {β : Type} (m : List (String × β)) (k : String) (v : β)
    (h : mapGet m k = some v) : (k, v) ∈ m := by
  induction m with
  | nil => simp [mapGet] at h
  | cons p rest ih =>
    obtain ⟨k1, v1⟩ := p
    unfold mapGet at h
    split at h
    · rename_i hk
      simp only [Option.some.injEq] at h
      subst hk h
      exact List.mem_cons_self _ _
    · exact List.mem_cons_of_mem _ (ih h)

theorem mapGet_mapSet {β : Type} (m : List (String × β)) (k k1 : String) (v : β) :
    mapGet (mapSet m k v) k1 = if k = k1 then some v else mapGet m k1 := by
  induction m with
  | nil => simp [mapSet, mapGet]
  | cons p rest ih =>
    obtain ⟨k0, v0⟩ := p
    unfold mapSet
    by_cases h0 : k0 = k
    · subst h0
      by_cases h1 : k0 = k1 <;> simp [mapGet, h1]
    · simp only [h0, if_false, mapGet, ih]
      by_cases h1 : k0 = k1
      · subst h1
        simp [Ne.symm h0]
      · simp [h1]

theorem hasBlock_iff (s sub : List Char) : hasBlock s sub = true ↔ sub <:+: s := by
  induction s with
  | nil => simp [hasBlock, List.isEmpty_iff]
  | cons c cs ih =>
    rw [hasBlock, Bool.or_eq_true, ih, List.infix_cons_iff, List.isPrefixOf_iff_prefix]

/-! ## Claims about `bigquery.go` -/

/-- C14: the two type maps are consistent.  Every rudder datatype that is a key of
`dataTypesMap` (these are boolean, int, float, string and datetime) is mapped to a
BigQuery type that `dataTypesMapToRudder` maps back to it, and every value of
`dataTypesMapToRudder` is a key of `dataTypesMap`. -/
theorem C14_type_maps_consistent :
    dataTypesMap.map Prod.fst = ["boolean", "int", "float", "string", "datetime"] ∧
    (∀ t ty, mapGet dataTypesMap t = some ty → mapGet dataTypesMapToRudder ty = some t) ∧
    (∀ ty t, mapGet dataTypesMapToRudder ty = some t →
      ∃ back, mapGet dataTypesMap t = some back) := by
  have h1 : ∀ p ∈ dataTypesMap, mapGet dataTypesMapToRudder p.2 = some p.1 := by decide
  have h2 : ∀ p ∈ dataTypesMapToRudder, (mapGet dataTypesMap p.2).isSome = true := by decide
  refine ⟨rfl, fun t ty h => h1 (t, ty) (mapGet_mem _ _ _ h), fun ty t h => ?_⟩
  exact Option.isSome_iff_exists.1 (h2 (ty, t) (mapGet_mem _ _ _ h))

theorem C14_type_maps_consistent_witness :
    mapGet dataTypesMapToRudder "TIMESTAMP" = some "datetime" ∧
    ∃ back, mapGet dataTypesMap "float" = some back :=
  ⟨C14_type_maps_consistent.2.1 "datetime" "TIMESTAMP" (by decide),
    C14_type_maps_consistent.2.2 "NUMERIC" "float" (by decide)⟩

/-- C15: `checkAndIgnoreAlreadyExistError` returns true exactly for the nil error,
for a googleapi error with code 409, and for a googleapi error with code 400 whose
message contains `already exists in schema`; for every other error it returns
false. -/
theorem C15_already_exist_error (err : Option BQError) :
    (checkAndIgnoreAlreadyExistError err = true ↔
      err = none ∨
      ∃ code msg, err = some (.googleapi code msg) ∧
        (code = 409 ∨
          (code = 400 ∧ "already exists in schema".data <:+: msg.data))) ∧
    (checkAndIgnoreAlreadyExistError err = false ↔
      (∃ text, err = some (.other text)) ∨
      ∃ code msg, err = some (.googleapi code msg) ∧ code ≠ 409 ∧
        (code ≠ 400 ∨ ¬ "already exists in schema".data <:+: msg.data)) := by
  rcases err with _ | ⟨code, msg⟩ | text
  · simp [checkAndIgnoreAlreadyExistError]
  · have key : checkAndIgnoreAlreadyExistError (some (.googleapi code msg)) = true ↔
        (code = 409 ∨ (code = 400 ∧ "already exists in schema".data <:+: msg.data)) := by
      simp [checkAndIgnoreAlreadyExistError, stringsContains, hasBlock_iff]
    constructor
    · constructor
      · intro h
        exact Or.inr ⟨code, msg, rfl, key.1 h⟩
      · rintro (h | ⟨c, m, h, hc⟩)
        · exact absurd h (by simp)
        · simp only [Option.some.injEq, BQError.googleapi.injEq] at h
          obtain ⟨rfl, rfl⟩ := h
          exact key.2 hc
    · rw [← Bool.not_eq_true, key]
      constructor
      · intro h
        refine Or.inr ⟨code, msg, rfl, fun h9 => h (Or.inl h9), ?_⟩
        by_cases h4 : code = 400
        · exact Or.inr (fun hm => h (Or.inr ⟨h4, hm⟩))
        · exact Or.inl h4
      · rintro (⟨text, h⟩ | ⟨c, m, h, h9, hrest⟩)
        · exact absurd h (by simp)
        · simp only [Option.some.injEq, BQError.googleapi.injEq] at h
          obtain ⟨rfl, rfl⟩ := h
          rintro (h | ⟨h4, hm⟩)
          · exact h9 h
          · rcases hrest with h | h
            · exact h h4
            · exact h hm
  · simp [checkAndIgnoreAlreadyExistError]

/-- C16: when the schema query fails with a googleapi error of code 404,
`FetchSchema` returns the empty non-nil schema and a nil error; when it fails with
a googleapi error of another code, it returns the empty schema and that error. -/
theorem C16_fetch_schema_not_found (env : FetchEnv) (code : Int) (msg : String)
    (hc : env.connect = none) (hr : env.read = .error (.googleapi code msg)) :
    (code = 404 → FetchSchema env = (some [], none)) ∧
    (code ≠ 404 → FetchSchema env = (some [], some (.googleapi code msg))) := by
  simp only [FetchSchema, hc, hr]
  constructor
  · intro h
    simp [h]
  · intro h
    simp [h]

theorem C16_fetch_schema_not_found_witness :
    FetchSchema (failingRead (.googleapi 404 "Not found: Dataset")) = (some [], none) ∧
    FetchSchema (failingRead (.googleapi 403 "Access Denied")) =
      (some [], some (.googleapi 403 "Access Denied")) :=
  ⟨(C16_fetch_schema_not_found (failingRead (.googleapi 404 "Not found: Dataset")) 404
      "Not found: Dataset" rfl rfl).1 rfl,
    (C16_fetch_schema_not_found (failingRead (.googleapi 403 "Access Denied")) 403
      "Access Denied" rfl rfl).2 (by decide)⟩

/-- The types that `dataTypesMapToRudder` yields are the five rudder datatypes. -/
theorem toRudder_values (cType ty : String) (h : mapGet dataTypesMapToRudder cType = some ty) :
    ty ∈ ["boolean", "int", "float", "string", "datetime"] := by
  have h1 : ∀ p ∈ dataTypesMapToRudder,
      p.2 ∈ ["boolean", "int", "float", "string", "datetime"] := by decide
  exact h1 (cType, ty) (mapGet_mem _ _ _ h)

theorem ensureTable_keep (schema : SchemaT) (n t : String)
    (h : (mapGet schema t).isSome = true) : (mapGet (ensureTable schema n) t).isSome = true := by
  unfold ensureTable
  split
  · rw [mapGet_mapSet]
    split
    · rfl
    · exact h
  · exact h

theorem ensureTable_has (schema : SchemaT) (n : String) :
    ∃ columns, mapGet (ensureTable schema n) n = some columns := by
  unfold ensureTable
  split
  · exact ⟨[], by simp [mapGet_mapSet]⟩
  · rename_i columns h
    exact ⟨columns, h⟩

theorem ensureTable_columns (schema : SchemaT) (n t c : String) :
    columnType (ensureTable schema n) t c = columnType schema t c := by
  unfold ensureTable
  split
  · rename_i h
    simp only [columnType, mapGet_mapSet]
    by_cases hk : n = t
    · subst hk
      simp [h, mapGet]
    · simp [hk]
  · rfl

theorem processRow_unknown (ToLower : String → String) (schema : SchemaT) (row : Row)
    (h : mapGet dataTypesMapToRudder (asString row.cType) = none) :
    processRow ToLower schema row = ensureTable schema (asString row.tName) := by
  simp [processRow, h]

theorem processRow_known (ToLower : String → String) (schema : SchemaT) (row : Row)
    (datatype : String) (columns : List (String × String))
    (h : mapGet dataTypesMapToRudder (asString row.cType) = some datatype)
    (hc : mapGet (ensureTable schema (asString row.tName)) (asString row.tName) = some columns) :
    processRow ToLower schema row =
      mapSet (ensureTable schema (asString row.tName)) (asString row.tName)
        (mapSet columns (ToLower (asString row.cName)) datatype) := by
  simp [processRow, h, hc]

/-- One pass of the loop body keeps every table, makes the table of the row
present, and records at most the column of the row. -/
theorem processRow_spec (ToLower : String → String) (schema : SchemaT) (row : Row) :
    (∀ t, (mapGet schema t).isSome = true →
      (mapGet (processRow ToLower schema row) t).isSome = true) ∧
    (mapGet (processRow ToLower schema row) (asString row.tName)).isSome = true ∧
    (∀ t c ty, columnType (processRow ToLower schema row) t c = some ty →
      columnType schema t c = some ty ∨
      (asString row.tName = t ∧ ToLower (asString row.cName) = c ∧
        mapGet dataTypesMapToRudder (asString row.cType) = some ty)) ∧
    (mapGet dataTypesMapToRudder (asString row.cType) = none →
      ∀ t c, columnType (processRow ToLower schema row) t c = columnType schema t c) := by
  obtain ⟨columns, hcols⟩ := ensureTable_has schema (asString row.tName)
  rcases hty : mapGet dataTypesMapToRudder (asString row.cType) with _ | datatype
  · rw [processRow_unknown ToLower schema row hty]
    refine ⟨fun t h => ensureTable_keep _ _ _ h, by simp [hcols], fun t c ty h => Or.inl ?_,
      fun _ t c => ensureTable_columns _ _ _ _⟩
    rwa [ensureTable_columns] at h
  · rw [processRow_known ToLower schema row datatype columns hty hcols]
    refine ⟨fun t h => ?_, by simp [mapGet_mapSet], fun t c ty h => ?_, fun hn => by simp at hn⟩
    · rw [mapGet_mapSet]
      split
      · rfl
      · exact ensureTable_keep _ _ _ h
    · simp only [columnType, mapGet_mapSet] at h
      by_cases hk : asString row.tName = t
      · subst hk
        simp only [if_true, mapGet_mapSet] at h
        by_cases hc : ToLower (asString row.cName) = c
        · simp only [hc, if_true] at h
          exact Or.inr ⟨rfl, hc, h⟩
        · simp only [hc, if_false] at h
          left
          rw [← ensureTable_columns schema (asString row.tName)]
          simpa [columnType, hcols] using h
      · simp only [hk, if_false] at h
        left
        rw [← ensureTable_columns schema (asString row.tName)]
        exact h

/-- The loop over rows that are all read successfully ends with a non-nil schema
and a nil error; it keeps the tables it started with, holds the table of every row,
and every column in it was there at the start or stems from a row. -/
theorem readRows_spec (ToLower : String → String) (rows : List Row) (schema : SchemaT) :
    ∃ out, readRows ToLower (rows.map .ok) schema = (some out, none) ∧
      (∀ t, (mapGet schema t).isSome = true → (mapGet out t).isSome = true) ∧
      (∀ row ∈ rows, (mapGet out (asString row.tName)).isSome = true) ∧
      (∀ t c ty, columnType out t c = some ty →
        columnType schema t c = some ty ∨
        ∃ row ∈ rows, asString row.tName = t ∧ ToLower (asString row.cName) = c ∧
          mapGet dataTypesMapToRudder (asString row.cType) = some ty) := by
  induction rows generalizing schema with
  | nil => exact ⟨schema, rfl, fun t h => h, by simp, fun t c ty h => Or.inl h⟩
  | cons row rows ih =>
    obtain ⟨out, hout, hkeep, hrows, hcols⟩ := ih (processRow ToLower schema row)
    obtain ⟨p1, p2, p3, -⟩ := processRow_spec ToLower schema row
    refine ⟨out, by simpa [readRows] using hout, fun t h => hkeep t (p1 t h), ?_, ?_⟩
    · intro r hr
      rcases List.mem_cons.1 hr with rfl | hr
      · exact hkeep _ p2
      · exact hrows r hr
    · intro t c ty h
      rcases hcols t c ty h with h | ⟨r, hr, h⟩
      · rcases p3 t c ty h with h | h
        · exact Or.inl h
        · exact Or.inr ⟨row, List.mem_cons_self _ _, h⟩
      · exact Or.inr ⟨r, List.mem_cons_of_mem _ hr, h⟩

/-- C17: when the connection and the query succeed and all rows are read
successfully, `FetchSchema` returns a schema and a nil error; every column
recorded in the schema stems from a row of that table, its name is the lower-cased
column name and its type is `dataTypesMapToRudder` of the data type of the row,
which is one of boolean, int, float, string, datetime; the table of every row is
present; and a row whose data type is not a key of `dataTypesMapToRudder` leaves
all columns as they were, while its table is present afterwards. -/
theorem C17_fetch_schema_columns (env : FetchEnv) (rows : List Row)
    (hc : env.connect = none) (hr : env.read = .ok (rows.map .ok)) :
    ∃ schema, FetchSchema env = (some schema, none) ∧
      (∀ t c ty, columnType schema t c = some ty →
        (∃ row ∈ rows, asString row.tName = t ∧ env.ToLower (asString row.cName) = c ∧
          mapGet dataTypesMapToRudder (asString row.cType) = some ty) ∧
        ty ∈ ["boolean", "int", "float", "string", "datetime"]) ∧
      (∀ row ∈ rows, (mapGet schema (asString row.tName)).isSome = true) ∧
      (∀ (s : SchemaT) (row : Row),
        mapGet dataTypesMapToRudder (asString row.cType) = none →
        (∀ t c, columnType (processRow env.ToLower s row) t c = columnType s t c) ∧
        (mapGet (processRow env.ToLower s row) (asString row.tName)).isSome = true) := by
  obtain ⟨out, hout, -, hrows, hcols⟩ := readRows_spec env.ToLower rows []
  refine ⟨out, by simp [FetchSchema, hc, hr, hout], fun t c ty h => ?_, hrows,
    fun s row hn => ⟨(processRow_spec env.ToLower s row).2.2.2 hn,
      (processRow_spec env.ToLower s row).2.1⟩⟩
  rcases hcols t c ty h with h | ⟨row, hrow, h1, h2, h3⟩
  · simp [columnType, mapGet] at h
  · exact ⟨⟨row, hrow, h1, h2, h3⟩, toRudder_values _ _ h3⟩

theorem C17_fetch_schema_columns_witness :
    ∃ schema, FetchSchema (yielding sampleRows) = (some schema, none) ∧
      (∀ t c ty, columnType schema t c = some ty →
        (∃ row ∈ sampleRows, asString row.tName = t ∧
          (yielding sampleRows).ToLower (asString row.cName) = c ∧
          mapGet dataTypesMapToRudder (asString row.cType) = some ty) ∧
        ty ∈ ["boolean", "int", "float", "string", "datetime"]) ∧
      (∀ row ∈ sampleRows, (mapGet schema (asString row.tName)).isSome = true) ∧
      (∀ (s : SchemaT) (row : Row),
        mapGet dataTypesMapToRudder (asString row.cType) = none →
        (∀ t c, columnType (processRow (yielding sampleRows).ToLower s row) t c =
          columnType s t c) ∧
        (mapGet (processRow (yielding sampleRows).ToLower s row)
          (asString row.tName)).isSome = true) :=
  C17_fetch_schema_columns (yielding sampleRows) sampleRows rfl rfl

theorem replaceDash_data (cs : List Char) :
    cs.flatMap (fun c => if c = '-' then "".data else [c]) = cs.filter (fun c => c ≠ '-') := by
  induction cs with
  | nil => rfl
  | cons c cs ih =>
    by_cases h : c = '-'
    · simp [List.flatMap_cons, h, ih]
    · simp [List.flatMap_cons, h, ih]

/-- C20: without dedup, and unless fetching the single load file failed,
`loadTable` loads by append, into `tableName` itself when
`customPartitionsEnabled` is set and into `partitionedTable(tableName, today)`
otherwise; `partitionedTable` returns the table name, a dollar sign and the date
with every dash removed, so that `2019-12-21` for `tracks` gives
`tracks$20191221`, and any date of three dash-free parts joined by dashes gives
the three parts in a row. -/
theorem C20_partitioned_table :
    (∀ (cfg : Config) (tableName : String) (fromTableUploads : Bool)
        (loadFileErr : Option BQError) (today staging : String),
      dedupEnabled cfg = false → (fromTableUploads = true → loadFileErr = none) →
      loadTable cfg tableName fromTableUploads loadFileErr today staging =
        .ok (.append today (if cfg.customPartitionsEnabled = true then tableName
          else partitionedTable tableName today))) ∧
    (∀ tableName date : String,
      partitionedTable tableName date =
        tableName ++ "$" ++ String.mk (date.data.filter (fun c => c ≠ '-'))) ∧
    (∀ tableName y m d : String, '-' ∉ y.data → '-' ∉ m.data → '-' ∉ d.data →
      partitionedTable tableName (y ++ "-" ++ m ++ "-" ++ d) =
        tableName ++ "$" ++ (y ++ m ++ d)) ∧
    partitionedTable "tracks" "2019-12-21" = "tracks$20191221" := by
  have hpt : ∀ tableName date : String,
      partitionedTable tableName date =
        tableName ++ "$" ++ String.mk (date.data.filter (fun c => c ≠ '-')) := by
    intro tableName date
    simp only [partitionedTable, stringsReplaceAllChar, replaceDash_data]
  refine ⟨fun cfg tableName fromTableUploads loadFileErr today staging h hl => ?_, hpt,
    fun tableName y m d hy hm hd => ?_, by decide⟩
  · have hbody : (if (!dedupEnabled cfg) = true then
          (Except.ok (.append (loadTableByAppend cfg tableName today).1
            (loadTableByAppend cfg tableName today).2) : Except BQError LoadTarget)
        else .ok (.merge staging)) =
        .ok (.append today (if cfg.customPartitionsEnabled = true then tableName
          else partitionedTable tableName today)) := by
      cases hcp : cfg.customPartitionsEnabled <;> simp [loadTableByAppend, h, hcp]
    cases fromTableUploads with
    | false => simpa [loadTable] using hbody
    | true =>
      rw [hl rfl]
      simpa [loadTable] using hbody
  · rw [hpt]
    congr 1
    apply String.ext
    have hf : ∀ s : String, '-' ∉ s.data → s.data.filter (fun c => c ≠ '-') = s.data := by
      intro s hs
      rw [List.filter_eq_self]
      intro c hc
      have : c ≠ '-' := fun h => hs (h ▸ hc)
      simpa using this
    have hdash : "-".data.filter (fun c => c ≠ '-') = [] := by decide
    simp only [String.data_append, List.filter_append, hf y hy, hf m hm, hf d hd, hdash,
      List.append_nil, List.nil_append, List.append_assoc]

theorem C20_partitioned_table_witness :
    loadTable ⟨true, false, false, false, false⟩ "tracks" true none "2019-12-21"
        "rudder_staging_tracks" = .ok (.append "2019-12-21" "tracks$20191221") ∧
    partitionedTable "pages" ("2024" ++ "-" ++ "02" ++ "-" ++ "29") =
      "pages" ++ "$" ++ ("2024" ++ "02" ++ "29") :=
  ⟨C20_partitioned_table.1 ⟨true, false, false, false, false⟩ "tracks" true none "2019-12-21"
      "rudder_staging_tracks" rfl (fun _ => rfl),
    C20_partitioned_table.2.2.1 "pages" "2024" "02" "29" (by decide) (by decide) (by decide)⟩

/-- C21 fails when only `user_id` exists: the select list is then
`null as anonymous_id", user_id`, with a double quote behind `anonymous_id`, and
not `null as anonymous_id, user_id`.  The other cases are as claimed: both columns
give `anonymous_id, user_id`, only `anonymous_id` gives
`anonymous_id, null as user_id`, and with neither column the closure returns nil
without a query.  Whenever the four metadata calls succeed, the closure issues the
statement built from the select list of the two column checks, or returns nil when
there is none. -/
theorem C21_select_fields :
    toSelectFields true true = some "anonymous_id, user_id" ∧
    toSelectFields true false = some "anonymous_id, null as user_id" ∧
    toSelectFields false true = some "null as anonymous_id\", user_id" ∧
    toSelectFields false true ≠ some "null as anonymous_id, user_id" ∧
    toSelectFields false false = none ∧
    getFromTable (tableWith ["id", "user_id"]) "rudder" "tracks" =
      .query
        "SELECT DISTINCT null as anonymous_id\", user_id FROM rudder.tracks LIMIT 10000 OFFSET 0" ∧
    getFromTable (tableWith ["id", "anonymous_id", "user_id"]) "rudder" "tracks" =
      .query "SELECT DISTINCT anonymous_id, user_id FROM rudder.tracks LIMIT 10000 OFFSET 0" ∧
    getFromTable (tableWith ["id", "anonymous_id"]) "rudder" "tracks" =
      .query
        "SELECT DISTINCT anonymous_id, null as user_id FROM rudder.tracks LIMIT 10000 OFFSET 0" ∧
    getFromTable (tableWith ["id"]) "rudder" "tracks" = .returned none ∧
    (∀ (Metadata : Nat → Except BQError TableMetadata) (bqNamespace tableName : String)
        (m0 m1 m2 m3 : TableMetadata),
      Metadata 0 = .ok m0 → Metadata 1 = .ok m1 → Metadata 2 = .ok m2 → Metadata 3 = .ok m3 →
      getFromTable Metadata bqNamespace tableName =
        match toSelectFields (m2.Schema.any (fun column => column = "anonymous_id"))
            (m3.Schema.any (fun column => column = "user_id")) with
        | none => .returned none
        | some fields => .query (identitySqlStatement fields bqNamespace tableName 10000 0)) := by
  refine ⟨by decide, by decide, by decide, by decide, by decide, by decide, by decide,
    by decide, by decide, ?_⟩
  intro Metadata bqNamespace tableName m0 m1 m2 m3 h0 h1 h2 h3
  simp only [getFromTable, tableExists, columnExists, h0, h1, h2, h3]

end Bigquery

namespace Warehouse

/-! ## Claims about the warehouse API -/

/-- C18 fails for `TableUploadReqT`: with an initialised API and the upload id
`-1` its `validateReq` returns nil, while `UploadReqT.validateReq` rejects the same
id.  `UploadReqT.validateReq` returns an error exactly when the API is not
initialised or the upload id is not greater than 0; `TableUploadReqT.validateReq`
returns an error exactly when the API is not initialised or the upload id is 0. -/
theorem C18_validate_req :
    TableUploadReqT.validateReq { UploadID := -1, Name := "", API := readyAPI } = none ∧
    UploadReqT.validateReq { UploadId := -1, API := readyAPI } =
      some "upload_id is empty or should be greater than 0 " ∧
    (∀ req : UploadReqT, req.validateReq ≠ none ↔
      (req.API.enabled = false ∨ req.API.log = none ∨ req.API.dbHandle = none) ∨
        ¬ req.UploadId > 0) ∧
    (∀ req : TableUploadReqT, req.validateReq ≠ none ↔
      (req.API.enabled = false ∨ req.API.log = none ∨ req.API.dbHandle = none) ∨
        req.UploadID = 0) := by
  refine ⟨by decide, by decide, fun req => ?_, fun req => ?_⟩
  · obtain ⟨id, ⟨en, db, lg, cm⟩⟩ := req
    cases en <;> cases db <;> cases lg <;> simp [UploadReqT.validateReq]
    omega
  · obtain ⟨id, nm, ⟨en, db, lg, cm⟩⟩ := req
    cases en <;> cases db <;> cases lg <;>
      simp [TableUploadReqT.validateReq]

/-- C19: when the request marshals and unmarshals without error into `r`,
`validateObjectStorageRequestBody` returns an `INVALID_ARGUMENT` error exactly when
the type is `AZURE_BLOB` and `checkMapForValidKey(config, "containerName")` is
false, or the type is one of `GCS`, `MINIO`, `S3`, `DIGITAL_OCEAN_SPACES` and
`checkMapForValidKey(config, "bucketName")` is false, or the type is any other
string (the message then says that the type is not supported); otherwise it
returns `r` and a nil error. -/
theorem C19_object_storage_body {ρ : Type} (env : BodyEnv ρ) (request : ρ) (byt : String)
    (r : ObjectStorageValidationRequest)
    (hm : env.Marshal request = .ok byt) (hu : env.Unmarshal byt = .ok r) :
    ((∃ msg, validateObjectStorageRequestBody env request = .error ⟨.INVALID_ARGUMENT, msg⟩) ↔
      (r.Typ = "AZURE_BLOB" ∧ env.checkMapForValidKey r.Config "containerName" = false) ∨
      ((r.Typ = "GCS" ∨ r.Typ = "MINIO" ∨ r.Typ = "S3" ∨ r.Typ = "DIGITAL_OCEAN_SPACES") ∧
        env.checkMapForValidKey r.Config "bucketName" = false) ∨
      (r.Typ ≠ "AZURE_BLOB" ∧ r.Typ ≠ "GCS" ∧ r.Typ ≠ "MINIO" ∧ r.Typ ≠ "S3" ∧
        r.Typ ≠ "DIGITAL_OCEAN_SPACES")) ∧
    (((r.Typ = "AZURE_BLOB" ∧ env.checkMapForValidKey r.Config "containerName" = true) ∨
      ((r.Typ = "GCS" ∨ r.Typ = "MINIO" ∨ r.Typ = "S3" ∨ r.Typ = "DIGITAL_OCEAN_SPACES") ∧
        env.checkMapForValidKey r.Config "bucketName" = true)) →
      validateObjectStorageRequestBody env request = .ok r) ∧
    ((r.Typ ≠ "AZURE_BLOB" ∧ r.Typ ≠ "GCS" ∧ r.Typ ≠ "MINIO" ∧ r.Typ ≠ "S3" ∧
        r.Typ ≠ "DIGITAL_OCEAN_SPACES") →
      validateObjectStorageRequestBody env request =
        .error ⟨.INVALID_ARGUMENT,
          "invalid argument err: " ++ ("type: " ++ r.Typ ++ " not supported")⟩) := by
  simp only [validateObjectStorageRequestBody, hm, hu, typeError]
  by_cases ha : r.Typ = "AZURE_BLOB"
  · cases hk : env.checkMapForValidKey r.Config "containerName" <;> simp [ha, hk]
  · by_cases hb : r.Typ = "GCS" ∨ r.Typ = "MINIO" ∨ r.Typ = "S3" ∨
        r.Typ = "DIGITAL_OCEAN_SPACES"
    · have hnot : ¬ (r.Typ ≠ "GCS" ∧ r.Typ ≠ "MINIO" ∧ r.Typ ≠ "S3" ∧
          r.Typ ≠ "DIGITAL_OCEAN_SPACES") := by
        rintro ⟨h1, h2, h3, h4⟩
        rcases hb with h | h | h | h
        · exact h1 h
        · exact h2 h
        · exact h3 h
        · exact h4 h
      cases hk : env.checkMapForValidKey r.Config "bucketName"
      · refine ⟨⟨fun _ => Or.inr (Or.inl ⟨hb, rfl⟩), fun _ => ?_⟩, ?_, ?_⟩
        · simp [ha, hb]
        · rintro (⟨h, -⟩ | ⟨-, h⟩)
          · exact absurd h ha
          · exact absurd h (by simp)
        · rintro ⟨-, h⟩
          exact absurd h hnot
      · refine ⟨⟨fun h => ?_, ?_⟩, fun _ => ?_, ?_⟩
        · simp [ha, hb] at h
        · rintro (⟨h, -⟩ | ⟨-, h⟩ | ⟨-, h⟩)
          · exact absurd h ha
          · exact absurd h (by simp)
          · exact absurd h hnot
        · simp [ha, hb]
        · rintro ⟨-, h⟩
          exact absurd h hnot
    · have hb1 := hb
      simp only [not_or] at hb1
      refine ⟨⟨fun _ => Or.inr (Or.inr ⟨ha, hb1⟩), fun _ => ?_⟩, ?_, fun _ => ?_⟩
      · simp [ha, hb]
      · rintro (⟨h, -⟩ | ⟨h, -⟩)
        · exact absurd h ha
        · exact absurd h hb
      · simp [ha, hb]

theorem C19_object_storage_body_witness :
    ((∃ msg, validateObjectStorageRequestBody directEnv ⟨"FTP", []⟩ =
        .error ⟨.INVALID_ARGUMENT, msg⟩) ↔
      (("FTP" : String) = "AZURE_BLOB" ∧
        directEnv.checkMapForValidKey [("bucketName", .string "rudder-logs")]
          "containerName" = false) ∨
      ((("FTP" : String) = "GCS" ∨ ("FTP" : String) = "MINIO" ∨ ("FTP" : String) = "S3" ∨
          ("FTP" : String) = "DIGITAL_OCEAN_SPACES") ∧
        directEnv.checkMapForValidKey [("bucketName", .string "rudder-logs")]
          "bucketName" = false) ∨
      (("FTP" : String) ≠ "AZURE_BLOB" ∧ ("FTP" : String) ≠ "GCS" ∧ ("FTP" : String) ≠ "MINIO" ∧
        ("FTP" : String) ≠ "S3" ∧ ("FTP" : String) ≠ "DIGITAL_OCEAN_SPACES")) ∧
    validateObjectStorageRequestBody directEnv ⟨"S3", []⟩ =
      .ok ⟨"S3", [("bucketName", .string "rudder-logs")]⟩ ∧
    validateObjectStorageRequestBody directEnv ⟨"FTP", []⟩ =
      .error ⟨.INVALID_ARGUMENT, "invalid argument err: " ++ ("type: " ++ "FTP" ++ " not supported")⟩ :=
  ⟨(C19_object_storage_body directEnv ⟨"FTP", []⟩ "FTP"
      ⟨"FTP", [("bucketName", .string "rudder-logs")]⟩ rfl rfl).1,
    (C19_object_storage_body directEnv ⟨"S3", []⟩ "S3"
      ⟨"S3", [("bucketName", .string "rudder-logs")]⟩ rfl rfl).2.1 (by decide),
    (C19_object_storage_body directEnv ⟨"FTP", []⟩ "FTP"
      ⟨"FTP", [("bucketName", .string "rudder-logs")]⟩ rfl rfl).2.2 (by decide)⟩

end Warehouse
